import Mathlib

/-! Instance transforms of `Hd_USTC_CG_Instancer`.

A shallow embedding of `source/Runtime/renderer/source/instancer.cpp`:

* `_SyncPrimvars` / `Sync`: the dirty-driven refresh of the primvar map;
* `ComputeInstanceTransforms`: the per-level composition of the four
  per-instance primvars and the expansion over the parent instancer.

Conventions of the embedding.

* `GfMatrix4d` is a 4x4 matrix over a commutative ring `R`; the `double`
  arithmetic of the program is read as exact ring arithmetic.
* `VtArray`s are lists, written to with `List.set`; the `for` loops of the
  program are folds over `List.range`.
* The recursion over the parent instancer carries a call-depth budget
  (`fuel`); `none` means the budget ran out before the call returned.
* The typed overloads of `Hd_USTC_CGBufferSampler::Sample` (declared in
  `sampler.h`) are a parameter of the embedding.
* `ComputeInstanceTransforms` is embedded twice: as a function of the state
  it reads, and, for the frame properties, as a state-passing function over
  the render index in which `_primvarMap[name]` can insert an entry
  (`ComputeInstanceTransformsSt`).
-/

namespace USTC_CG

/-! ## Data model -/

/-- Scene paths; the empty path is the empty string. -/
abbrev SdfPath := String

/-- The test `SdfPath::IsEmpty`. -/
def SdfPath.IsEmpty (p : SdfPath) : Bool := p == ""

/-- Primvar names. -/
abbrev TfToken := String

namespace HdInstancerTokens

/-- The reserved name of the per-instance translations. -/
def instanceTranslations : TfToken := "hydra:instanceTranslations"

/-- The reserved name of the per-instance rotations. -/
def instanceRotations : TfToken := "hydra:instanceRotations"

/-- The reserved name of the per-instance scales. -/
def instanceScales : TfToken := "hydra:instanceScales"

/-- The reserved name of the per-instance full matrices. -/
def instanceTransforms : TfToken := "hydra:instanceTransforms"

end HdInstancerTokens

/-- A 4x4 matrix, `_mtx[row][column]`. -/
abbrev GfMatrix4d (R : Type) := Matrix (Fin 4) (Fin 4) R

/-- A 3-vector. -/
abbrev GfVec3f (R : Type) := Fin 3 → R

/-- A 4-vector. -/
abbrev GfVec4f (R : Type) := Fin 4 → R

/-- An array of matrices. -/
abbrev VtMatrix4dArray (R : Type) := List (GfMatrix4d R)

/-- An array of `int`. -/
abbrev VtIntArray := List Int

/-- A type-erased value: either holding nothing, or one of the array types a
per-instance primvar can arrive as. -/
inductive VtValue (R : Type) where
  | empty : VtValue R
  | vec3fArray (a : List (GfVec3f R)) : VtValue R
  | vec4fArray (a : List (GfVec4f R)) : VtValue R
  | matrix4dArray (a : List (GfMatrix4d R)) : VtValue R
  | intArray (a : List Int) : VtValue R
deriving DecidableEq

/-- The test `VtValue::IsEmpty`: the value holds nothing. -/
def VtValue.IsEmpty {R : Type} : VtValue R → Bool
  | .empty => true
  | _ => false

/-- The buffer built by `new HdVtBufferSource(name, value)`. -/
structure HdVtBufferSource (R : Type) where
  name : TfToken
  value : VtValue R
deriving DecidableEq

/-- The member `_primvarMap`: primvar name to owned buffer. -/
abbrev PrimvarMap (R : Type) := TfToken → Option (HdVtBufferSource R)

/-- The call `_primvarMap.count(name)`. -/
def PrimvarMap.count {R : Type} (m : PrimvarMap R) (name : TfToken) : Nat :=
  if (m name).isSome then 1 else 0

/-- The three typed overloads of `Hd_USTC_CGBufferSampler::Sample(index, &out)`
used by the instancer, on a sampler constructed over a buffer: `some v` when
the call returns `true` and writes `v`, `none` when it returns `false`. -/
structure Hd_USTC_CGBufferSampler (R : Type) where
  SampleVec3f : HdVtBufferSource R → Int → Option (GfVec3f R)
  SampleVec4f : HdVtBufferSource R → Int → Option (GfVec4f R)
  SampleMatrix4d : HdVtBufferSource R → Int → Option (GfMatrix4d R)

/-- The state of an instancer read by `ComputeInstanceTransforms`. -/
structure Hd_USTC_CG_Instancer (R : Type) where
  id : SdfPath
  parentId : SdfPath
  _primvarMap : PrimvarMap R

/-- The scene delegate and its render index, as far as the instancer queries
them. -/
structure HdSceneDelegate (R : Type) where
  GetInstancerTransform : SdfPath → GfMatrix4d R
  GetInstanceIndices : SdfPath → SdfPath → VtIntArray
  GetInstancer : SdfPath → Option (Hd_USTC_CG_Instancer R)

/-- What a call of `ComputeInstanceTransforms` leaves behind: the returned
array and the number of failed `TF_VERIFY` checks it posted. -/
structure Computed (R : Type) where
  transforms : VtMatrix4dArray R
  verifyFailures : Nat

/-! ## `Sync` -/

/-- What `Sync` and `_SyncPrimvars` read from the scene delegate and the
change tracker for this instancer: the names of the descriptors returned by
`GetPrimvarDescriptors(id, HdInterpolationInstance)` in order, the tests
`HdChangeTracker::IsAnyPrimvarDirty(dirtyBits, id)` and
`HdChangeTracker::IsPrimvarDirty(dirtyBits, id, name)`, and the values
`delegate->Get(id, name)`. -/
structure SyncInputs (R : Type) where
  primvars : List TfToken
  IsAnyPrimvarDirty : Bool
  IsPrimvarDirty : TfToken → Bool
  Get : TfToken → VtValue R

/-- The method `Hd_USTC_CG_Instancer::_SyncPrimvars`, as a function of the
primvar map. The `delete` of a displaced buffer frees memory only. -/
def _SyncPrimvars {R : Type} (env : SyncInputs R) (_primvarMap : PrimvarMap R) :
    PrimvarMap R :=
  env.primvars.foldl
    (fun m name =>
      if env.IsPrimvarDirty name then
        let value := env.Get name
        if !value.IsEmpty then
          Function.update m name (some ⟨name, value⟩)
        else m
      else m)
    _primvarMap

/-- The method `Hd_USTC_CG_Instancer::Sync`, as a function of the primvar map;
`_UpdateInstancer` belongs to the base class and does not reach the map. -/
def Sync {R : Type} (env : SyncInputs R) (_primvarMap : PrimvarMap R) : PrimvarMap R :=
  if env.IsAnyPrimvarDirty then _SyncPrimvars env _primvarMap else _primvarMap

/-- The dirty set of a synchronization: the instance-rate primvar names the
change tracker reports dirty. -/
def dirtyNames {R : Type} (env : SyncInputs R) : List TfToken :=
  env.primvars.filter env.IsPrimvarDirty

/-- The fetched value has the element type the instancer samples under
`name`: 3-vectors for translations and scales, 4-vectors for rotations, 4x4
matrices for full matrices. Other names carry no constraint. -/
def wellFormedFor {R : Type} (name : TfToken) (value : VtValue R) : Bool :=
  if name = HdInstancerTokens.instanceTranslations ∨ name = HdInstancerTokens.instanceScales then
    match value with
    | .vec3fArray _ => true
    | _ => false
  else if name = HdInstancerTokens.instanceRotations then
    match value with
    | .vec4fArray _ => true
    | _ => false
  else if name = HdInstancerTokens.instanceTransforms then
    match value with
    | .matrix4dArray _ => true
    | _ => false
  else true

section Compositor

variable {R : Type} [CommRing R]

/-! ## Matrix constructors -/

/-- The matrix after `GfMatrix4d m(1); m.SetTranslate(t)`. -/
def SetTranslate (t : GfVec3f R) : GfMatrix4d R :=
  !![1, 0, 0, 0;
     0, 1, 0, 0;
     0, 0, 1, 0;
     t 0, t 1, t 2, 1]

/-- The matrix after `GfMatrix4d m(1); m.SetRotate(GfQuatd(q[0], q[1], q[2], q[3]))`,
with `q[0]` the real part. -/
def SetRotate (q : GfVec4f R) : GfMatrix4d R :=
  !![1 - 2 * (q 2 * q 2 + q 3 * q 3), 2 * (q 1 * q 2 + q 3 * q 0), 2 * (q 3 * q 1 - q 2 * q 0), 0;
     2 * (q 1 * q 2 - q 3 * q 0), 1 - 2 * (q 3 * q 3 + q 1 * q 1), 2 * (q 2 * q 3 + q 1 * q 0), 0;
     2 * (q 3 * q 1 + q 2 * q 0), 2 * (q 2 * q 3 - q 1 * q 0), 1 - 2 * (q 1 * q 1 + q 2 * q 2), 0;
     0, 0, 0, 1]

/-- The matrix after `GfMatrix4d m(1); m.SetScale(s)`. -/
def SetScale (s : GfVec3f R) : GfMatrix4d R :=
  !![s 0, 0, 0, 0;
     0, s 1, 0, 0;
     0, 0, s 2, 0;
     0, 0, 0, 1]

/-! ## One level of `ComputeInstanceTransforms` -/

/-- The loop
`for (i = 0; i < instanceIndices.size(); ++i) transforms[i] = instancerTransform;`
on the freshly sized array `VtMatrix4dArray transforms(instanceIndices.size())`. -/
def initLoop (instancerTransform : GfMatrix4d R) (instanceIndices : VtIntArray) :
    VtMatrix4dArray R :=
  (List.range instanceIndices.length).foldl
    (fun transforms i => transforms.set i instancerTransform)
    (List.replicate instanceIndices.length 0)

/-- The loop shared by the four primvar blocks:
`for (i = 0; i < instanceIndices.size(); ++i)
   if (sampler.Sample(instanceIndices[i], &v)) transforms[i] = mat(v) * transforms[i];`
where `sample ix` is `some (mat v)` when the sample at `ix` succeeds. -/
def sampleLoop (sample : Int → Option (GfMatrix4d R)) (instanceIndices : VtIntArray)
    (transforms : VtMatrix4dArray R) : VtMatrix4dArray R :=
  (List.range instanceIndices.length).foldl
    (fun transforms i =>
      match sample (instanceIndices.getD i 0) with
      | some mat => transforms.set i (mat * transforms.getD i 0)
      | none => transforms)
    transforms

/-- The block guarded by `_primvarMap.count(instanceTranslations) > 0`; the
inner `match` is the dereference `*_primvarMap[instanceTranslations]`, which
finds a buffer whenever the guard holds. -/
def applyTranslations (S : Hd_USTC_CGBufferSampler R) (m : PrimvarMap R)
    (instanceIndices : VtIntArray) (transforms : VtMatrix4dArray R) : VtMatrix4dArray R :=
  if m.count HdInstancerTokens.instanceTranslations > 0 then
    match m HdInstancerTokens.instanceTranslations with
    | some buffer =>
      sampleLoop (fun ix => (S.SampleVec3f buffer ix).map SetTranslate) instanceIndices transforms
    | none => transforms
  else transforms

/-- The block guarded by `_primvarMap.count(instanceRotations) > 0`. -/
def applyRotations (S : Hd_USTC_CGBufferSampler R) (m : PrimvarMap R)
    (instanceIndices : VtIntArray) (transforms : VtMatrix4dArray R) : VtMatrix4dArray R :=
  if m.count HdInstancerTokens.instanceRotations > 0 then
    match m HdInstancerTokens.instanceRotations with
    | some buffer =>
      sampleLoop (fun ix => (S.SampleVec4f buffer ix).map SetRotate) instanceIndices transforms
    | none => transforms
  else transforms

/-- The block guarded by `_primvarMap.count(instanceScales) > 0`. -/
def applyScales (S : Hd_USTC_CGBufferSampler R) (m : PrimvarMap R)
    (instanceIndices : VtIntArray) (transforms : VtMatrix4dArray R) : VtMatrix4dArray R :=
  if m.count HdInstancerTokens.instanceScales > 0 then
    match m HdInstancerTokens.instanceScales with
    | some buffer =>
      sampleLoop (fun ix => (S.SampleVec3f buffer ix).map SetScale) instanceIndices transforms
    | none => transforms
  else transforms

/-- The block guarded by `_primvarMap.count(instanceTransforms) > 0`. -/
def applyTransforms (S : Hd_USTC_CGBufferSampler R) (m : PrimvarMap R)
    (instanceIndices : VtIntArray) (transforms : VtMatrix4dArray R) : VtMatrix4dArray R :=
  if m.count HdInstancerTokens.instanceTransforms > 0 then
    match m HdInstancerTokens.instanceTransforms with
    | some buffer =>
      sampleLoop (fun ix => S.SampleMatrix4d buffer ix) instanceIndices transforms
    | none => transforms
  else transforms

/-- The array `transforms` of `ComputeInstanceTransforms` when control reaches
the test of the parent id: the level transform, then translations,
rotations, scales and full matrices, in program order. -/
def levelTransforms (S : Hd_USTC_CGBufferSampler R) (delegate : HdSceneDelegate R)
    (self : Hd_USTC_CG_Instancer R) (prototypeId : SdfPath) : VtMatrix4dArray R :=
  let instancerTransform := delegate.GetInstancerTransform self.id
  let instanceIndices := delegate.GetInstanceIndices self.id prototypeId
  let transforms := initLoop instancerTransform instanceIndices
  let transforms := applyTranslations S self._primvarMap instanceIndices transforms
  let transforms := applyRotations S self._primvarMap instanceIndices transforms
  let transforms := applyScales S self._primvarMap instanceIndices transforms
  applyTransforms S self._primvarMap instanceIndices transforms

/-! ## Nesting -/

/-- The double loop filling `final`:
`final[i * transforms.size() + j] = transforms[j] * parentTransforms[i]`
on the freshly sized array
`VtMatrix4dArray final(parentTransforms.size() * transforms.size())`. -/
def nestLoop (parentTransforms transforms : VtMatrix4dArray R) : VtMatrix4dArray R :=
  (List.range parentTransforms.length).foldl
    (fun final i =>
      (List.range transforms.length).foldl
        (fun final j =>
          final.set (i * transforms.length + j)
            (transforms.getD j 0 * parentTransforms.getD i 0))
        final)
    (List.replicate (parentTransforms.length * transforms.length) 0)

/-- The method `Hd_USTC_CG_Instancer::ComputeInstanceTransforms`, called on
`self` with `prototypeId`; `fuel` bounds the depth of the calls on parents. -/
def ComputeInstanceTransforms (S : Hd_USTC_CGBufferSampler R) (delegate : HdSceneDelegate R) :
    Nat → Hd_USTC_CG_Instancer R → SdfPath → Option (Computed R)
  | 0, _, _ => none
  | fuel + 1, self, prototypeId =>
    let transforms := levelTransforms S delegate self prototypeId
    if SdfPath.IsEmpty self.parentId then
      some ⟨transforms, 0⟩
    else
      match delegate.GetInstancer self.parentId with
      | none => some ⟨transforms, 1⟩
      | some parentInstancer =>
        match ComputeInstanceTransforms S delegate fuel parentInstancer self.id with
        | none => none
        | some parent =>
          some ⟨nestLoop parent.transforms transforms, parent.verifyFailures⟩

/-! ## Vocabulary of the statements -/

/-- The effect of one primvar block on one slot. -/
def applyContribution (c : Option (GfMatrix4d R)) (t : GfMatrix4d R) : GfMatrix4d R :=
  match c with
  | some mat => mat * t
  | none => t

/-- The sample of the translation primvar at instance index `ix`, as a
matrix; `none` when the buffer is absent or the sample fails. -/
def translationSample (S : Hd_USTC_CGBufferSampler R) (m : PrimvarMap R) (ix : Int) :
    Option (GfMatrix4d R) :=
  (m HdInstancerTokens.instanceTranslations).bind
    (fun buffer => (S.SampleVec3f buffer ix).map SetTranslate)

/-- The sample of the rotation primvar at instance index `ix`, as a matrix;
`none` when the buffer is absent or the sample fails. -/
def rotationSample (S : Hd_USTC_CGBufferSampler R) (m : PrimvarMap R) (ix : Int) :
    Option (GfMatrix4d R) :=
  (m HdInstancerTokens.instanceRotations).bind
    (fun buffer => (S.SampleVec4f buffer ix).map SetRotate)

/-- The sample of the scale primvar at instance index `ix`, as a matrix;
`none` when the buffer is absent or the sample fails. -/
def scaleSample (S : Hd_USTC_CGBufferSampler R) (m : PrimvarMap R) (ix : Int) :
    Option (GfMatrix4d R) :=
  (m HdInstancerTokens.instanceScales).bind
    (fun buffer => (S.SampleVec3f buffer ix).map SetScale)

/-- The sample of the full-matrix primvar at instance index `ix`; `none` when
the buffer is absent or the sample fails. -/
def matrixSample (S : Hd_USTC_CGBufferSampler R) (m : PrimvarMap R) (ix : Int) :
    Option (GfMatrix4d R) :=
  (m HdInstancerTokens.instanceTransforms).bind
    (fun buffer => S.SampleMatrix4d buffer ix)

/-- The contribution of a kind in the words of the specification: the sampled
matrix, replaced by the identity when there is none. -/
def contribution (c : Option (GfMatrix4d R)) : GfMatrix4d R :=
  c.getD 1

end Compositor

/-! ## Concrete scenes -/

/-- Modelled from the spec: the typed sampling of a buffer,
`Hd_USTC_CGBufferSampler::Sample` of `sampler.h`, which is not among the
sources. "Returns the value at `index` from the named buffer if the name is
present and `index` is in range; returns nothing otherwise"; a buffer holding
another element type than the one asked for has no value to return. -/
def specSampler {R : Type} : Hd_USTC_CGBufferSampler R where
  SampleVec3f buffer index :=
    match buffer.value with
    | .vec3fArray a => if 0 ≤ index then a[index.toNat]? else none
    | _ => none
  SampleVec4f buffer index :=
    match buffer.value with
    | .vec4fArray a => if 0 ≤ index then a[index.toNat]? else none
    | _ => none
  SampleMatrix4d buffer index :=
    match buffer.value with
    | .matrix4dArray a => if 0 ≤ index then a[index.toNat]? else none
    | _ => none

/-- The primvar map of the concrete scenario: a translation buffer
`[(1,0,0), (0,1,0)]` and nothing else. -/
def scenarioPrimvarMap : PrimvarMap ℤ := fun name =>
  if name = HdInstancerTokens.instanceTranslations then
    some ⟨name, .vec3fArray [![1, 0, 0], ![0, 1, 0]]⟩
  else none

/-- The instancer `I` of the concrete scenario: no parent. -/
def scenarioInstancer : Hd_USTC_CG_Instancer ℤ := ⟨"/I", "", scenarioPrimvarMap⟩

/-- The delegate of the concrete scenario: identity level transform, instance
indices `[0, 1]`, no other instancer. -/
def scenarioDelegate : HdSceneDelegate ℤ :=
  ⟨fun _ => 1, fun _ _ => [0, 1], fun _ => none⟩

/-- A primvar map holding nothing. -/
def emptyPrimvarMap : PrimvarMap ℤ := fun _ => none

/-- The primvar map of the parent of the nested scene: three translations. -/
def nestedParentPrimvarMap : PrimvarMap ℤ := fun name =>
  if name = HdInstancerTokens.instanceTranslations then
    some ⟨name, .vec3fArray [![0, 0, 5], ![0, 0, 6], ![0, 0, 7]]⟩
  else none

/-- The parent instancer `/P` of the nested scene: a root. -/
def nestedParent : Hd_USTC_CG_Instancer ℤ := ⟨"/P", "", nestedParentPrimvarMap⟩

/-- The child instancer `/P/I` of the nested scene, instanced by `/P`. -/
def nestedChild : Hd_USTC_CG_Instancer ℤ := ⟨"/P/I", "/P", scenarioPrimvarMap⟩

/-- The delegate of the nested scene: `/P` instances its child three times,
`/P/I` instances its prototype twice. -/
def nestedDelegate : HdSceneDelegate ℤ :=
  ⟨fun _ => 1,
   fun id _ => if id = "/P" then [0, 1, 2] else [0, 1],
   fun id => if id = "/P" then some nestedParent else none⟩

/-- An instancer naming a parent that the render index does not hold. -/
def orphanInstancer : Hd_USTC_CG_Instancer ℤ := ⟨"/I", "/Missing", emptyPrimvarMap⟩

/-- The instancer `/A` of the cyclic scene: its parent is `/B`. -/
def cycleA : Hd_USTC_CG_Instancer ℤ := ⟨"/A", "/B", emptyPrimvarMap⟩

/-- The instancer `/B` of the cyclic scene: its parent is `/A`. -/
def cycleB : Hd_USTC_CG_Instancer ℤ := ⟨"/B", "/A", emptyPrimvarMap⟩

/-- The delegate of the cyclic scene `A → B → A`. -/
def cycleDelegate : HdSceneDelegate ℤ :=
  ⟨fun _ => 1,
   fun _ _ => [0, 1],
   fun id => if id = "/A" then some cycleA else if id = "/B" then some cycleB else none⟩

/-- The primvar map of the order scene: one translation `(1,0,0)` and one
rotation, the half turn about the z axis, quaternion `(0; 0,0,1)`. -/
def orderPrimvarMap : PrimvarMap ℤ := fun name =>
  if name = HdInstancerTokens.instanceTranslations then
    some ⟨name, .vec3fArray [![1, 0, 0]]⟩
  else if name = HdInstancerTokens.instanceRotations then
    some ⟨name, .vec4fArray [![0, 0, 0, 1]]⟩
  else none

/-- The instancer of the order scene: no parent. -/
def orderInstancer : Hd_USTC_CG_Instancer ℤ := ⟨"/I", "", orderPrimvarMap⟩

/-- The delegate of the order scene: identity level transform, instance
indices `[0]`. -/
def orderDelegate : HdSceneDelegate ℤ :=
  ⟨fun _ => 1, fun _ _ => [0], fun _ => none⟩

/-- A root instancer without any primvar. -/
def bareInstancer : Hd_USTC_CG_Instancer ℤ := ⟨"/I", "", emptyPrimvarMap⟩

/-- A delegate whose level transform translates by (2,3,4), with the instance
indices `[5, 9, 9]`. -/
def bareDelegate : HdSceneDelegate ℤ :=
  ⟨fun _ => SetTranslate ![2, 3, 4], fun _ _ => [5, 9, 9], fun _ => none⟩

/-- The primvar map before the concrete synchronizations: translations and
scales are populated, rotations are not. -/
def syncPrimvarMap : PrimvarMap ℤ := fun name =>
  if name = HdInstancerTokens.instanceTranslations then
    some ⟨name, .vec3fArray [![9, 9, 9]]⟩
  else if name = HdInstancerTokens.instanceScales then
    some ⟨name, .vec3fArray [![2, 2, 2]]⟩
  else none

/-- A synchronization in which translations and rotations are dirty and
scales are not; the delegate has new translations, nothing for rotations,
and new scales. -/
def syncInputs : SyncInputs ℤ where
  primvars := [HdInstancerTokens.instanceTranslations, HdInstancerTokens.instanceRotations,
    HdInstancerTokens.instanceScales]
  IsAnyPrimvarDirty := true
  IsPrimvarDirty := fun name => name != HdInstancerTokens.instanceScales
  Get := fun name =>
    if name = HdInstancerTokens.instanceTranslations then .vec3fArray [![1, 0, 0], ![0, 1, 0]]
    else if name = HdInstancerTokens.instanceScales then .vec3fArray [![3, 3, 3]]
    else .empty

/-- A synchronization in which the delegate answers the dirty translations
with an array of 4-vectors. -/
def malformedInputs : SyncInputs ℤ where
  primvars := [HdInstancerTokens.instanceTranslations]
  IsAnyPrimvarDirty := true
  IsPrimvarDirty := fun _ => true
  Get := fun _ => .vec4fArray [![1, 2, 3, 4]]

/-! ## Parent chains and single-kind maps -/

/-- The four reserved primvar names. -/
def reservedNames : List TfToken :=
  [HdInstancerTokens.instanceTranslations, HdInstancerTokens.instanceRotations,
   HdInstancerTokens.instanceScales, HdInstancerTokens.instanceTransforms]

/-- The primvar map holds `buffer` under `name` and nothing under the other
reserved names. -/
def HoldsOnly {R : Type} (m : PrimvarMap R) (name : TfToken) (buffer : HdVtBufferSource R) :
    Prop :=
  m name = some buffer ∧ ∀ other ∈ reservedNames, other ≠ name → m other = none



section Vocabulary

variable {R : Type}

/-- The instancer the parent id of `self` resolves to, if the id is non-empty
and resolves. -/
def resolvedParent (delegate : HdSceneDelegate R) (self : Hd_USTC_CG_Instancer R) :
    Option (Hd_USTC_CG_Instancer R) :=
  if SdfPath.IsEmpty self.parentId then none else delegate.GetInstancer self.parentId

/-- The `k`-th instancer up the parent chain of `self`. -/
def ancestor (delegate : HdSceneDelegate R) : Nat → Hd_USTC_CG_Instancer R →
    Option (Hd_USTC_CG_Instancer R)
  | 0, self => some self
  | k + 1, self => (resolvedParent delegate self).bind (ancestor delegate k)

/-- The parent chain of `self` contains a cycle: some instancer on the chain
is its own ancestor after a positive number of steps. -/
def ParentChainCyclic (delegate : HdSceneDelegate R) (self : Hd_USTC_CG_Instancer R) : Prop :=
  ∃ (m k : Nat) (a : Hd_USTC_CG_Instancer R),
    ancestor delegate m self = some a ∧ ancestor delegate (k + 1) a = some a

end Vocabulary

/-- The primvar map of the sparse scene: two translations, for the instance
indices 0 and 1 only. -/
def sparsePrimvarMap : PrimvarMap ℤ := fun name =>
  if name = HdInstancerTokens.instanceTranslations then
    some ⟨name, .vec3fArray [![1, 0, 0], ![0, 1, 0]]⟩
  else none

/-- The instance indices of the sparse scene: the second one, 7, is outside
the translation buffer. -/
def sparseIndices : VtIntArray := [1, 7, 0]

/-- The running transforms of the sparse scene before the translation block. -/
def sparseTransforms : VtMatrix4dArray ℤ :=
  [SetScale ![2, 2, 2], SetScale ![3, 3, 3], SetScale ![4, 4, 4]]

section ChainVocabulary

variable {R : Type} [CommRing R]

/-- The instance index list read at level `k` of the parent chain of `self`:
level 0 is the list of `self` for `prototypeId`, level `k + 1` is level `k` of
the resolved parent, read for the id of `self`. -/
def levelIndices (delegate : HdSceneDelegate R) :
    Nat → Hd_USTC_CG_Instancer R → SdfPath → Option VtIntArray
  | 0, self, prototypeId => some (delegate.GetInstanceIndices self.id prototypeId)
  | k + 1, self, _ =>
    (resolvedParent delegate self).bind (fun parent => levelIndices delegate k parent self.id)

/-- The local transform arrays `t_0, ..., t_d` along the parent chain of
`self`: `t_0` for `prototypeId` at `self`, `t_k` at the `k`-th ancestor for
the id of the instancer below it. -/
def chainLevels (S : Hd_USTC_CGBufferSampler R) (delegate : HdSceneDelegate R) :
    Nat → Hd_USTC_CG_Instancer R → SdfPath → List (VtMatrix4dArray R)
  | 0, self, prototypeId => [levelTransforms S delegate self prototypeId]
  | d + 1, self, prototypeId =>
    levelTransforms S delegate self prototypeId ::
      match resolvedParent delegate self with
      | some parent => chainLevels S delegate d parent self.id
      | none => []

/-- The mixed-radix index `((...(j_d * n_{d-1} + j_{d-1})...) * n_0 + j_0` of
the digits `j_0, ..., j_d` for the sizes `n_0, ..., n_d`. -/
def mixedRadixIndex : List Nat → List Nat → Nat
  | n :: ns, j :: js => mixedRadixIndex ns js * n + j
  | _, _ => 0

/-- The product `t_0[j_0] * (t_1[j_1] * (... * t_d[j_d]))`, when every digit is
in range. -/
def chainProduct : List (VtMatrix4dArray R) → List Nat → Option (GfMatrix4d R)
  | [t], [j] => t[j]?
  | t :: ts, j :: js => (t[j]?).bind (fun a => (chainProduct ts js).map (fun b => a * b))
  | _, _ => none

end ChainVocabulary

/-- The delegate of the zero scene: `/P` instances its child zero times,
the child instances its prototype twice. -/
def zeroDelegate : HdSceneDelegate ℤ :=
  ⟨fun _ => 1,
   fun id _ => if id = "/P" then [] else [0, 1],
   fun id => if id = "/P" then some nestedParent else none⟩

/-! ## `ComputeInstanceTransforms` on mutable instancer objects -/

/-- The member `_primvarMap` with its pointers: a name has no entry (`none`),
or an entry holding a pointer that is null (`some none`) or owns a buffer. -/
abbrev PointerMap (R : Type) := TfToken → Option (Option (HdVtBufferSource R))

/-- The call `_primvarMap.count(name)`, which does not modify the map. -/
def PointerMap.count {R : Type} (m : PointerMap R) (name : TfToken) : Nat :=
  if (m name).isSome then 1 else 0

/-- The expression `_primvarMap[name]` read as a value: the pointer stored
under `name`, and the map afterwards. A name without an entry first gets one,
holding a null pointer. -/
def PointerMap.subscript {R : Type} (m : PointerMap R) (name : TfToken) :
    Option (HdVtBufferSource R) × PointerMap R :=
  match m name with
  | some pointer => (pointer, m)
  | none => (none, Function.update m name (some none))

/-- An instancer object held by the render index. -/
structure InstancerObject (R : Type) where
  id : SdfPath
  parentId : SdfPath
  _primvarMap : PointerMap R

/-- The instancer objects of the render index, by path. -/
abbrev RenderIndex (R : Type) := SdfPath → Option (InstancerObject R)

section Stateful

variable {R : Type} [CommRing R]

/-- One primvar block of `ComputeInstanceTransforms` with the map threaded
through: the guard `count(name) > 0`, the dereference `*_primvarMap[name]`
and the sample loop. Dereferencing a null pointer ends the run (`none`). -/
def guardedBlockSt (name : TfToken)
    (sample : HdVtBufferSource R → Int → Option (GfMatrix4d R)) (m : PointerMap R)
    (instanceIndices : VtIntArray) (transforms : VtMatrix4dArray R) :
    Option (VtMatrix4dArray R × PointerMap R) :=
  if m.count name > 0 then
    match m.subscript name with
    | (some buffer, m1) => some (sampleLoop (fun ix => sample buffer ix) instanceIndices transforms, m1)
    | (none, _) => none
  else some (transforms, m)

/-- The array `transforms` when control reaches the test of the parent id, and
the primvar map of the object at that point. -/
def levelTransformsSt (S : Hd_USTC_CGBufferSampler R) (delegate : HdSceneDelegate R)
    (this : InstancerObject R) (prototypeId : SdfPath) :
    Option (VtMatrix4dArray R × PointerMap R) :=
  let instancerTransform := delegate.GetInstancerTransform this.id
  let instanceIndices := delegate.GetInstanceIndices this.id prototypeId
  let transforms := initLoop instancerTransform instanceIndices
  (guardedBlockSt HdInstancerTokens.instanceTranslations
      (fun buffer ix => (S.SampleVec3f buffer ix).map SetTranslate)
      this._primvarMap instanceIndices transforms).bind fun (transforms, m) =>
  (guardedBlockSt HdInstancerTokens.instanceRotations
      (fun buffer ix => (S.SampleVec4f buffer ix).map SetRotate)
      m instanceIndices transforms).bind fun (transforms, m) =>
  (guardedBlockSt HdInstancerTokens.instanceScales
      (fun buffer ix => (S.SampleVec3f buffer ix).map SetScale)
      m instanceIndices transforms).bind fun (transforms, m) =>
  guardedBlockSt HdInstancerTokens.instanceTransforms
      (fun buffer ix => S.SampleMatrix4d buffer ix)
      m instanceIndices transforms

/-- The method `ComputeInstanceTransforms` called on the object the render
index holds at `self`, with the render index as state: the result and the
render index after the call. `none`: the call depth ran out, there is no
object at `self`, or a null pointer was dereferenced. -/
def ComputeInstanceTransformsSt (S : Hd_USTC_CGBufferSampler R) (delegate : HdSceneDelegate R) :
    Nat → RenderIndex R → SdfPath → SdfPath → Option (Computed R × RenderIndex R)
  | 0, _, _, _ => none
  | fuel + 1, index, self, prototypeId =>
    match index self with
    | none => none
    | some this =>
      match levelTransformsSt S delegate this prototypeId with
      | none => none
      | some (transforms, m) =>
        let index1 := Function.update index self (some { this with _primvarMap := m })
        if SdfPath.IsEmpty this.parentId then
          some (⟨transforms, 0⟩, index1)
        else
          match index1 this.parentId with
          | none => some (⟨transforms, 1⟩, index1)
          | some _ =>
            match ComputeInstanceTransformsSt S delegate fuel index1 this.parentId this.id with
            | none => none
            | some (parent, index2) =>
              some (⟨nestLoop parent.transforms transforms, parent.verifyFailures⟩, index2)

end Stateful

/-- The object of an instancer whose every entry owns a buffer. -/
def toObject {R : Type} (instancer : Hd_USTC_CG_Instancer R) : InstancerObject R :=
  ⟨instancer.id, instancer.parentId, fun name => (instancer._primvarMap name).map some⟩

/-- The render index holding the objects of the instancers of a delegate. -/
def objectsOf {R : Type} (delegate : HdSceneDelegate R) : RenderIndex R :=
  fun path => (delegate.GetInstancer path).map toObject

/-- The delegate of the nested scene with the child registered as well. -/
def registeredDelegate : HdSceneDelegate ℤ :=
  ⟨fun _ => 1,
   fun id _ => if id = "/P" then [0, 1, 2] else [0, 1],
   fun id => if id = "/P" then some nestedParent
     else if id = "/P/I" then some nestedChild else none⟩

/-- The product written in the comment that opens `ComputeInstanceTransforms`,
`instancerTransform * instanceTranslations(index) * instanceRotations(index)
* instanceScales(index) * instanceTransforms(index)`, taken with the operands
left to right as operands of the matrix product (instancer transform
leftmost, full matrix rightmost); a transform that is not provided is the
identity. -/
def docCommentTransform {R : Type} [CommRing R] (S : Hd_USTC_CGBufferSampler R)
    (delegate : HdSceneDelegate R) (self : Hd_USTC_CG_Instancer R) (ix : Int) : GfMatrix4d R :=
  delegate.GetInstancerTransform self.id *
    contribution (translationSample S self._primvarMap ix) *
    contribution (rotationSample S self._primvarMap ix) *
    contribution (scaleSample S self._primvarMap ix) *
    contribution (matrixSample S self._primvarMap ix)

/-- The product the four blocks of `ComputeInstanceTransforms` build up at the
instance index `ix`, operands in the order of `GfMatrix4d::operator*`:
`instanceTransforms(ix) * instanceScales(ix) * instanceRotations(ix) *
instanceTranslations(ix) * instancerTransform`, a transform that is not
provided being the identity. -/
def levelProduct {R : Type} [CommRing R] (S : Hd_USTC_CGBufferSampler R)
    (delegate : HdSceneDelegate R) (self : Hd_USTC_CG_Instancer R) (ix : Int) : GfMatrix4d R :=
  contribution (matrixSample S self._primvarMap ix) *
    contribution (scaleSample S self._primvarMap ix) *
    contribution (rotationSample S self._primvarMap ix) *
    contribution (translationSample S self._primvarMap ix) *
    delegate.GetInstancerTransform self.id

/-! # Properties -/

section SyncProofs

variable {R : Type}

/-- The primvar map after `_SyncPrimvars`, name by name. -/
theorem _SyncPrimvars_apply (env : SyncInputs R) (m : PrimvarMap R) (name : TfToken) :
    _SyncPrimvars env m name =
      if name ∈ dirtyNames env ∧ (env.Get name).IsEmpty = false then
        some ⟨name, env.Get name⟩
      else m name := by
  unfold _SyncPrimvars dirtyNames
  generalize env.primvars = l
  induction l generalizing m with
  | nil => simp
  | cons x l ih =>
    rw [List.foldl_cons, ih]
    by_cases hx : x = name
    · subst hx
      by_cases hd : env.IsPrimvarDirty x = true
      · cases he : (env.Get x).IsEmpty <;> simp [hd, he]
      · simp [hd]
    · have hx2 : ¬ name = x := fun h => hx h.symm
      by_cases hd : env.IsPrimvarDirty x = true
      · cases he : (env.Get x).IsEmpty <;>
          simp [hd, he, hx, hx2, Function.update_noteq hx2, List.filter_cons]
      · simp [hd, hx, hx2, List.filter_cons]

/-- C6: update rule of `_SyncPrimvars`. For every name in the dirty set, if the
fetch yields a value that is not empty, the entry for that name after the
call is the buffer built from that name and value, whether or not an entry
was there before; if the fetch yields nothing, the entry for that name is
what it was before, present or absent. -/
theorem C6_sync_update_rule (env : SyncInputs R) (m : PrimvarMap R) (name : TfToken)
    (hdirty : name ∈ dirtyNames env) :
    ((env.Get name).IsEmpty = false →
      _SyncPrimvars env m name = some ⟨name, env.Get name⟩) ∧
    ((env.Get name).IsEmpty = true → _SyncPrimvars env m name = m name) := by
  rw [_SyncPrimvars_apply]
  constructor
  · intro h
    simp [hdirty, h]
  · intro h
    simp [h]

/-- C6 at the concrete synchronization: the dirty translations are replaced by
the fetched array, the dirty rotations, for which nothing is fetched, stay
absent. -/
theorem C6_sync_update_rule_witness :
    (HdInstancerTokens.instanceTranslations ∈ dirtyNames syncInputs ∧
      (syncInputs.Get HdInstancerTokens.instanceTranslations).IsEmpty = false ∧
      syncPrimvarMap HdInstancerTokens.instanceTranslations =
        some ⟨HdInstancerTokens.instanceTranslations, .vec3fArray [![9, 9, 9]]⟩ ∧
      _SyncPrimvars syncInputs syncPrimvarMap HdInstancerTokens.instanceTranslations =
        some ⟨HdInstancerTokens.instanceTranslations,
          .vec3fArray [![1, 0, 0], ![0, 1, 0]]⟩) ∧
    (HdInstancerTokens.instanceRotations ∈ dirtyNames syncInputs ∧
      (syncInputs.Get HdInstancerTokens.instanceRotations).IsEmpty = true ∧
      syncPrimvarMap HdInstancerTokens.instanceRotations = none ∧
      _SyncPrimvars syncInputs syncPrimvarMap HdInstancerTokens.instanceRotations = none) :=
  ⟨⟨by decide, rfl, rfl,
      (C6_sync_update_rule syncInputs syncPrimvarMap HdInstancerTokens.instanceTranslations
        (by decide)).1 rfl⟩,
    ⟨by decide, rfl, rfl,
      (C6_sync_update_rule syncInputs syncPrimvarMap HdInstancerTokens.instanceRotations
        (by decide)).2 rfl⟩⟩

/-- C7: frame of `Sync`. Every entry whose name is not in the dirty set is
unchanged, in presence and in content, and no key is removed: a name that
has an entry before the call has one after it. -/
theorem C7_sync_frame (env : SyncInputs R) (m : PrimvarMap R) (name : TfToken) :
    (name ∉ dirtyNames env → Sync env m name = m name) ∧
    ((m name).isSome = true → (Sync env m name).isSome = true) := by
  unfold Sync
  cases env.IsAnyPrimvarDirty with
  | false => simp
  | true =>
    simp only [if_true]
    rw [_SyncPrimvars_apply]
    constructor
    · intro h
      simp [h]
    · intro h
      split
      · rfl
      · exact h

/-- C7 at the concrete synchronization: the scales are not dirty and keep
their buffer although the delegate has new scales; the translations keep
their key. -/
theorem C7_sync_frame_witness :
    HdInstancerTokens.instanceScales ∉ dirtyNames syncInputs ∧
    Sync syncInputs syncPrimvarMap HdInstancerTokens.instanceScales =
      some ⟨HdInstancerTokens.instanceScales, .vec3fArray [![2, 2, 2]]⟩ ∧
    (Sync syncInputs syncPrimvarMap HdInstancerTokens.instanceTranslations).isSome = true :=
  ⟨by decide,
    (C7_sync_frame syncInputs syncPrimvarMap HdInstancerTokens.instanceScales).1 (by decide),
    (C7_sync_frame syncInputs syncPrimvarMap HdInstancerTokens.instanceTranslations).2 rfl⟩

/-- C8, refuted as stated: the delegate answers the dirty translations with an
array of 4-vectors, malformed for that kind, and after `_SyncPrimvars` the
entry is no longer the previous buffer but the malformed one. -/
theorem C8_malformed_counterexample :
    HdInstancerTokens.instanceTranslations ∈ dirtyNames malformedInputs ∧
    wellFormedFor HdInstancerTokens.instanceTranslations
      (malformedInputs.Get HdInstancerTokens.instanceTranslations) = false ∧
    syncPrimvarMap HdInstancerTokens.instanceTranslations =
      some ⟨HdInstancerTokens.instanceTranslations, .vec3fArray [![9, 9, 9]]⟩ ∧
    _SyncPrimvars malformedInputs syncPrimvarMap HdInstancerTokens.instanceTranslations =
      some ⟨HdInstancerTokens.instanceTranslations, .vec4fArray [![1, 2, 3, 4]]⟩ ∧
    _SyncPrimvars malformedInputs syncPrimvarMap HdInstancerTokens.instanceTranslations ≠
      syncPrimvarMap HdInstancerTokens.instanceTranslations :=
  ⟨by decide, by decide, rfl, rfl, by decide⟩

/-- C8, amended: malformed samples are not rejected at sync time. For every
dirty name whose fetched value is not empty and is malformed for the kind of
the name, `_SyncPrimvars` installs the buffer built from that value under the
name, displacing the previous entry. -/
theorem C8_malformed_sample_is_stored (env : SyncInputs R) (m : PrimvarMap R) (name : TfToken)
    (hdirty : name ∈ dirtyNames env) (hvalue : (env.Get name).IsEmpty = false)
    (_hmalformed : wellFormedFor name (env.Get name) = false) :
    _SyncPrimvars env m name = some ⟨name, env.Get name⟩ := by
  rw [_SyncPrimvars_apply]
  simp [hdirty, hvalue]

/-- C8, amended, at the malformed synchronization. -/
theorem C8_malformed_sample_is_stored_witness :
    HdInstancerTokens.instanceTranslations ∈ dirtyNames malformedInputs ∧
    (malformedInputs.Get HdInstancerTokens.instanceTranslations).IsEmpty = false ∧
    wellFormedFor HdInstancerTokens.instanceTranslations
      (malformedInputs.Get HdInstancerTokens.instanceTranslations) = false ∧
    _SyncPrimvars malformedInputs syncPrimvarMap HdInstancerTokens.instanceTranslations =
      some ⟨HdInstancerTokens.instanceTranslations,
        malformedInputs.Get HdInstancerTokens.instanceTranslations⟩ :=
  ⟨by decide, rfl, by decide,
    C8_malformed_sample_is_stored malformedInputs syncPrimvarMap
      HdInstancerTokens.instanceTranslations (by decide) rfl (by decide)⟩

end SyncProofs

section Loops

/-- A fold over `List.range n` whose step rewrites only slot `i`, to `u i` of
its content, rewrites the first `n` slots and keeps the length. -/
theorem foldl_range_pointwise {α : Type} (step : List α → Nat → List α) (u : Nat → α → α)
    (hlen : ∀ ts i, (step ts i).length = ts.length)
    (hne : ∀ ts i j, j ≠ i → (step ts i)[j]? = ts[j]?)
    (heq : ∀ ts i, (step ts i)[i]? = ts[i]?.map (u i))
    (ts : List α) (n : Nat) :
    ((List.range n).foldl step ts).length = ts.length ∧
      ∀ j, ((List.range n).foldl step ts)[j]? =
        if j < n then ts[j]?.map (u j) else ts[j]? := by
  induction n with
  | zero => simp
  | succ n ih =>
    obtain ⟨ihl, ihg⟩ := ih
    rw [List.range_succ, List.foldl_append]
    simp only [List.foldl_cons, List.foldl_nil]
    refine ⟨by rw [hlen, ihl], fun j => ?_⟩
    by_cases hj : j = n
    · subst hj
      rw [heq, ihg]
      simp
    · rw [hne _ _ _ hj, ihg]
      by_cases h1 : j < n
      · have : j < n + 1 := by omega
        simp [h1, this]
      · have : ¬ j < n + 1 := by omega
        simp [h1, this]

/-- A fold over `List.range n` writing slot `base + j` at step `j`. -/
theorem foldl_range_set_offset {α : Type} (base : Nat) (G : Nat → α) (fin : List α) (n : Nat) :
    ((List.range n).foldl (fun f j => f.set (base + j) (G j)) fin).length = fin.length ∧
      ∀ k, ((List.range n).foldl (fun f j => f.set (base + j) (G j)) fin)[k]? =
        if base ≤ k ∧ k < base + n ∧ k < fin.length then some (G (k - base)) else fin[k]? := by
  induction n with
  | zero =>
    refine ⟨by simp, fun k => ?_⟩
    have : ¬ (base ≤ k ∧ k < base + 0 ∧ k < fin.length) := by omega
    rw [if_neg this]
    simp
  | succ n ih =>
    obtain ⟨ihl, ihg⟩ := ih
    rw [List.range_succ, List.foldl_append]
    simp only [List.foldl_cons, List.foldl_nil]
    refine ⟨by rw [List.length_set, ihl], fun k => ?_⟩
    rw [List.getElem?_set, ihl, ihg]
    by_cases hk : base + n = k
    · subst hk
      rw [if_pos rfl]
      by_cases hlt : base + n < fin.length
      · have h1 : base ≤ base + n ∧ base + n < base + (n + 1) ∧ base + n < fin.length := by omega
        rw [if_pos hlt, if_pos h1, Nat.add_sub_cancel_left]
      · have h1 : ¬ (base ≤ base + n ∧ base + n < base + (n + 1) ∧ base + n < fin.length) := by
          omega
        rw [if_neg hlt, if_neg h1]
        exact (List.getElem?_eq_none (Nat.le_of_not_lt hlt)).symm
    · rw [if_neg hk]
      by_cases h1 : base ≤ k ∧ k < base + n ∧ k < fin.length
      · have h2 : base ≤ k ∧ k < base + (n + 1) ∧ k < fin.length := by omega
        rw [if_pos h1, if_pos h2]
      · have h2 : ¬ (base ≤ k ∧ k < base + (n + 1) ∧ k < fin.length) := by omega
        rw [if_neg h1, if_neg h2]

variable {R : Type} [CommRing R]

theorem initLoop_eq (T0 : GfMatrix4d R) (idx : VtIntArray) :
    initLoop T0 idx = List.replicate idx.length T0 := by
  unfold initLoop
  obtain ⟨_, hg⟩ := foldl_range_pointwise (fun (ts : VtMatrix4dArray R) i => ts.set i T0)
    (fun _ _ => T0) (fun ts i => by simp) (fun ts i j h => by
      simp [List.getElem?_set, Ne.symm h]) (fun ts i => by
      by_cases h : i < ts.length
      · simp [List.getElem?_set, h]
      · simp [List.getElem?_set, h, List.getElem?_eq_none (Nat.le_of_not_lt h)])
    (List.replicate idx.length 0) idx.length
  apply List.ext_getElem?
  intro j
  rw [hg]
  by_cases h : j < idx.length <;> simp [List.getElem?_replicate, h]

theorem sampleLoop_spec (sample : Int → Option (GfMatrix4d R)) (idx : VtIntArray)
    (ts : VtMatrix4dArray R) :
    (sampleLoop sample idx ts).length = ts.length ∧
      ∀ j, (sampleLoop sample idx ts)[j]? =
        if j < idx.length then ts[j]?.map (applyContribution (sample (idx.getD j 0)))
        else ts[j]? := by
  unfold sampleLoop
  apply foldl_range_pointwise
    (fun (transforms : VtMatrix4dArray R) i =>
      match sample (idx.getD i 0) with
      | some mat => transforms.set i (mat * transforms.getD i 0)
      | none => transforms)
    (fun j => applyContribution (sample (idx.getD j 0)))
  · intro ts i
    cases sample (idx.getD i 0) <;> simp
  · intro ts i j h
    cases sample (idx.getD i 0) <;> simp [List.getElem?_set, Ne.symm h]
  · intro ts i
    cases hs : sample (idx.getD i 0) with
    | none => cases ts[i]? <;> simp [applyContribution]
    | some mat =>
      by_cases h : i < ts.length
      · simp [List.getElem?_set, h, applyContribution, List.getD_eq_getElem?_getD]
      · simp [List.getElem?_set, h, List.getElem?_eq_none (Nat.le_of_not_lt h)]

theorem nestLoop_rows (par ts : VtMatrix4dArray R) (m : Nat) (hm : m ≤ par.length) :
    let r := (List.range m).foldl
      (fun final i =>
        (List.range ts.length).foldl
          (fun final j => final.set (i * ts.length + j) (ts.getD j 0 * par.getD i 0)) final)
      (List.replicate (par.length * ts.length) (0 : GfMatrix4d R))
    r.length = par.length * ts.length ∧
      ∀ p j, p < m → j < ts.length →
        r[p * ts.length + j]? = some (ts.getD j 0 * par.getD p 0) := by
  induction m with
  | zero => simp
  | succ m ih =>
    obtain ⟨ihl, ihg⟩ := ih (by omega)
    intro r
    have hr : r = (List.range ts.length).foldl
        (fun final j => final.set (m * ts.length + j) (ts.getD j 0 * par.getD m 0))
        ((List.range m).foldl
          (fun final i =>
            (List.range ts.length).foldl
              (fun final j => final.set (i * ts.length + j) (ts.getD j 0 * par.getD i 0)) final)
          (List.replicate (par.length * ts.length) (0 : GfMatrix4d R))) := by
      simp only [r, List.range_succ, List.foldl_append, List.foldl_cons, List.foldl_nil]
    obtain ⟨hl, hg⟩ := foldl_range_set_offset (m * ts.length)
      (fun j => ts.getD j 0 * par.getD m 0)
      ((List.range m).foldl
          (fun final i =>
            (List.range ts.length).foldl
              (fun final j => final.set (i * ts.length + j) (ts.getD j 0 * par.getD i 0)) final)
          (List.replicate (par.length * ts.length) (0 : GfMatrix4d R))) ts.length
    rw [hr]
    refine ⟨by rw [hl, ihl], fun p j hp hj => ?_⟩
    rw [hg, ihl]
    have hrow : (m + 1) * ts.length ≤ par.length * ts.length := Nat.mul_le_mul_right _ hm
    rw [Nat.add_mul, Nat.one_mul] at hrow
    by_cases hpm : p = m
    · subst hpm
      have h1 : p * ts.length ≤ p * ts.length + j ∧
          p * ts.length + j < p * ts.length + ts.length ∧
          p * ts.length + j < par.length * ts.length := by omega
      rw [if_pos h1, Nat.add_sub_cancel_left]
    · have hlt : p < m := by omega
      have h0 : (p + 1) * ts.length ≤ m * ts.length := Nat.mul_le_mul_right _ hlt
      rw [Nat.add_mul, Nat.one_mul] at h0
      have h1 : ¬ (m * ts.length ≤ p * ts.length + j ∧
          p * ts.length + j < m * ts.length + ts.length ∧
          p * ts.length + j < par.length * ts.length) := by omega
      rw [if_neg h1]
      exact ihg p j hlt hj

theorem nestLoop_spec (par ts : VtMatrix4dArray R) :
    (nestLoop par ts).length = par.length * ts.length ∧
      ∀ p j, p < par.length → j < ts.length →
        (nestLoop par ts)[p * ts.length + j]? = some (ts.getD j 0 * par.getD p 0) :=
  nestLoop_rows par ts par.length (Nat.le_refl _)

end Loops

section Level

variable {R : Type} [CommRing R]

theorem applyContribution_eq (c : Option (GfMatrix4d R)) (t : GfMatrix4d R) :
    applyContribution c t = contribution c * t := by
  cases c <;> simp [applyContribution, contribution]

/-- A guarded primvar block is the sample loop over the looked-up buffer. -/
theorem guardedBlock_spec (m : PrimvarMap R) (tok : TfToken)
    (f : HdVtBufferSource R → Int → Option (GfMatrix4d R)) (idx : VtIntArray)
    (ts : VtMatrix4dArray R) :
    let r := if m.count tok > 0 then
        match m tok with
        | some buffer => sampleLoop (fun ix => f buffer ix) idx ts
        | none => ts
      else ts
    r.length = ts.length ∧
      ∀ j, r[j]? =
        if j < idx.length then
          ts[j]?.map (applyContribution ((m tok).bind (fun buffer => f buffer (idx.getD j 0))))
        else ts[j]? := by
  intro r
  cases hm : m tok with
  | none =>
    have hr : r = ts := by simp [r, PrimvarMap.count, hm]
    rw [hr]
    refine ⟨rfl, fun j => ?_⟩
    cases ts[j]? <;> simp [applyContribution]
  | some buffer =>
    have hr : r = sampleLoop (fun ix => f buffer ix) idx ts := by
      simp [r, PrimvarMap.count, hm]
    rw [hr]
    exact sampleLoop_spec _ idx ts

theorem applyTranslations_spec (S : Hd_USTC_CGBufferSampler R) (m : PrimvarMap R)
    (idx : VtIntArray) (ts : VtMatrix4dArray R) :
    (applyTranslations S m idx ts).length = ts.length ∧
      ∀ j, (applyTranslations S m idx ts)[j]? =
        if j < idx.length then
          ts[j]?.map (applyContribution (translationSample S m (idx.getD j 0)))
        else ts[j]? :=
  guardedBlock_spec m _ (fun buffer ix => (S.SampleVec3f buffer ix).map SetTranslate) idx ts

theorem applyRotations_spec (S : Hd_USTC_CGBufferSampler R) (m : PrimvarMap R)
    (idx : VtIntArray) (ts : VtMatrix4dArray R) :
    (applyRotations S m idx ts).length = ts.length ∧
      ∀ j, (applyRotations S m idx ts)[j]? =
        if j < idx.length then
          ts[j]?.map (applyContribution (rotationSample S m (idx.getD j 0)))
        else ts[j]? :=
  guardedBlock_spec m _ (fun buffer ix => (S.SampleVec4f buffer ix).map SetRotate) idx ts

theorem applyScales_spec (S : Hd_USTC_CGBufferSampler R) (m : PrimvarMap R)
    (idx : VtIntArray) (ts : VtMatrix4dArray R) :
    (applyScales S m idx ts).length = ts.length ∧
      ∀ j, (applyScales S m idx ts)[j]? =
        if j < idx.length then
          ts[j]?.map (applyContribution (scaleSample S m (idx.getD j 0)))
        else ts[j]? :=
  guardedBlock_spec m _ (fun buffer ix => (S.SampleVec3f buffer ix).map SetScale) idx ts

theorem applyTransforms_spec (S : Hd_USTC_CGBufferSampler R) (m : PrimvarMap R)
    (idx : VtIntArray) (ts : VtMatrix4dArray R) :
    (applyTransforms S m idx ts).length = ts.length ∧
      ∀ j, (applyTransforms S m idx ts)[j]? =
        if j < idx.length then
          ts[j]?.map (applyContribution (matrixSample S m (idx.getD j 0)))
        else ts[j]? :=
  guardedBlock_spec m _ (fun buffer ix => S.SampleMatrix4d buffer ix) idx ts

/-- The array of one level, slot by slot. -/
theorem levelTransforms_spec (S : Hd_USTC_CGBufferSampler R) (delegate : HdSceneDelegate R)
    (self : Hd_USTC_CG_Instancer R) (prototypeId : SdfPath) :
    (levelTransforms S delegate self prototypeId).length =
        (delegate.GetInstanceIndices self.id prototypeId).length ∧
      ∀ j, j < (delegate.GetInstanceIndices self.id prototypeId).length →
        (levelTransforms S delegate self prototypeId)[j]? =
          some (applyContribution
            (matrixSample S self._primvarMap
              ((delegate.GetInstanceIndices self.id prototypeId).getD j 0))
            (applyContribution
              (scaleSample S self._primvarMap
                ((delegate.GetInstanceIndices self.id prototypeId).getD j 0))
              (applyContribution
                (rotationSample S self._primvarMap
                  ((delegate.GetInstanceIndices self.id prototypeId).getD j 0))
                (applyContribution
                  (translationSample S self._primvarMap
                    ((delegate.GetInstanceIndices self.id prototypeId).getD j 0))
                  (delegate.GetInstancerTransform self.id))))) := by
  unfold levelTransforms
  simp only []
  generalize delegate.GetInstanceIndices self.id prototypeId = idx
  generalize delegate.GetInstancerTransform self.id = T0
  obtain ⟨l4, g4⟩ := applyTransforms_spec S self._primvarMap idx
    (applyScales S self._primvarMap idx (applyRotations S self._primvarMap idx
      (applyTranslations S self._primvarMap idx (initLoop T0 idx))))
  obtain ⟨l3, g3⟩ := applyScales_spec S self._primvarMap idx
    (applyRotations S self._primvarMap idx
      (applyTranslations S self._primvarMap idx (initLoop T0 idx)))
  obtain ⟨l2, g2⟩ := applyRotations_spec S self._primvarMap idx
      (applyTranslations S self._primvarMap idx (initLoop T0 idx))
  obtain ⟨l1, g1⟩ := applyTranslations_spec S self._primvarMap idx (initLoop T0 idx)
  refine ⟨by rw [l4, l3, l2, l1, initLoop_eq, List.length_replicate], fun j hj => ?_⟩
  rw [g4, g3, g2, g1, initLoop_eq, List.getElem?_replicate]
  simp [hj]

/-! ## The parentless level -/

/-- C1: for an instancer with no parent, whatever the level transform, the list
of instance indices and the primvar map, `ComputeInstanceTransforms` returns
as many matrices as there are instance indices, and the matrix at position
`i` is `M_i * (S_i * (R_i * (Tr_i * T0)))`, where `Tr_i`, `R_i`, `S_i`, `M_i`
are the translation, rotation, scale and full-matrix contributions sampled at
`idx[i]`, each the identity when its buffer is absent or its sample fails. -/
theorem C1_parentless_composition (S : Hd_USTC_CGBufferSampler R)
    (delegate : HdSceneDelegate R) (self : Hd_USTC_CG_Instancer R) (prototypeId : SdfPath)
    (fuel : Nat) (hroot : SdfPath.IsEmpty self.parentId = true) :
    ∃ result : VtMatrix4dArray R,
      ComputeInstanceTransforms S delegate (fuel + 1) self prototypeId = some ⟨result, 0⟩ ∧
      result.length = (delegate.GetInstanceIndices self.id prototypeId).length ∧
      ∀ (i : Nat) (hi : i < (delegate.GetInstanceIndices self.id prototypeId).length),
        result[i]? = some
          (contribution (matrixSample S self._primvarMap
              (delegate.GetInstanceIndices self.id prototypeId)[i]) *
            (contribution (scaleSample S self._primvarMap
                (delegate.GetInstanceIndices self.id prototypeId)[i]) *
              (contribution (rotationSample S self._primvarMap
                  (delegate.GetInstanceIndices self.id prototypeId)[i]) *
                (contribution (translationSample S self._primvarMap
                    (delegate.GetInstanceIndices self.id prototypeId)[i]) *
                  delegate.GetInstancerTransform self.id)))) := by
  obtain ⟨hl, hg⟩ := levelTransforms_spec S delegate self prototypeId
  refine ⟨levelTransforms S delegate self prototypeId, ?_, hl, fun i hi => ?_⟩
  · simp [ComputeInstanceTransforms, hroot]
  · rw [hg i hi, List.getD_eq_getElem _ _ hi]
    simp only [applyContribution_eq]

/-- C1 at the concrete scenario: translations `[(1,0,0), (0,1,0)]`, indices
`[0, 1]`, identity level transform, no parent. -/
theorem C1_parentless_composition_witness :
    SdfPath.IsEmpty scenarioInstancer.parentId = true ∧
    ∃ result : VtMatrix4dArray ℤ,
      ComputeInstanceTransforms specSampler scenarioDelegate 1 scenarioInstancer "/proto" =
        some ⟨result, 0⟩ ∧
      result.length = (scenarioDelegate.GetInstanceIndices scenarioInstancer.id "/proto").length ∧
      ∀ (i : Nat)
        (hi : i < (scenarioDelegate.GetInstanceIndices scenarioInstancer.id "/proto").length),
        result[i]? = some
          (contribution (matrixSample specSampler scenarioInstancer._primvarMap
              (scenarioDelegate.GetInstanceIndices scenarioInstancer.id "/proto")[i]) *
            (contribution (scaleSample specSampler scenarioInstancer._primvarMap
                (scenarioDelegate.GetInstanceIndices scenarioInstancer.id "/proto")[i]) *
              (contribution (rotationSample specSampler scenarioInstancer._primvarMap
                  (scenarioDelegate.GetInstanceIndices scenarioInstancer.id "/proto")[i]) *
                (contribution (translationSample specSampler scenarioInstancer._primvarMap
                    (scenarioDelegate.GetInstanceIndices scenarioInstancer.id "/proto")[i]) *
                  scenarioDelegate.GetInstancerTransform scenarioInstancer.id)))) :=
  ⟨by decide,
    C1_parentless_composition specSampler scenarioDelegate scenarioInstancer "/proto" 0
      (by decide)⟩

end Level

section SingleKindMaps

theorem holdsOnly_translations {R : Type} {m : PrimvarMap R} {buffer : HdVtBufferSource R}
    (h : HoldsOnly m HdInstancerTokens.instanceTranslations buffer) :
    m HdInstancerTokens.instanceTranslations = some buffer ∧
      m HdInstancerTokens.instanceRotations = none ∧
      m HdInstancerTokens.instanceScales = none ∧
      m HdInstancerTokens.instanceTransforms = none :=
  ⟨h.1, h.2 _ (by simp [reservedNames]) (by decide), h.2 _ (by simp [reservedNames]) (by decide),
    h.2 _ (by simp [reservedNames]) (by decide)⟩

theorem holdsOnly_rotations {R : Type} {m : PrimvarMap R} {buffer : HdVtBufferSource R}
    (h : HoldsOnly m HdInstancerTokens.instanceRotations buffer) :
    m HdInstancerTokens.instanceTranslations = none ∧
      m HdInstancerTokens.instanceRotations = some buffer ∧
      m HdInstancerTokens.instanceScales = none ∧
      m HdInstancerTokens.instanceTransforms = none :=
  ⟨h.2 _ (by simp [reservedNames]) (by decide), h.1, h.2 _ (by simp [reservedNames]) (by decide),
    h.2 _ (by simp [reservedNames]) (by decide)⟩

theorem holdsOnly_scales {R : Type} {m : PrimvarMap R} {buffer : HdVtBufferSource R}
    (h : HoldsOnly m HdInstancerTokens.instanceScales buffer) :
    m HdInstancerTokens.instanceTranslations = none ∧
      m HdInstancerTokens.instanceRotations = none ∧
      m HdInstancerTokens.instanceScales = some buffer ∧
      m HdInstancerTokens.instanceTransforms = none :=
  ⟨h.2 _ (by simp [reservedNames]) (by decide), h.2 _ (by simp [reservedNames]) (by decide), h.1,
    h.2 _ (by simp [reservedNames]) (by decide)⟩

theorem holdsOnly_transforms {R : Type} {m : PrimvarMap R} {buffer : HdVtBufferSource R}
    (h : HoldsOnly m HdInstancerTokens.instanceTransforms buffer) :
    m HdInstancerTokens.instanceTranslations = none ∧
      m HdInstancerTokens.instanceRotations = none ∧
      m HdInstancerTokens.instanceScales = none ∧
      m HdInstancerTokens.instanceTransforms = some buffer :=
  ⟨h.2 _ (by simp [reservedNames]) (by decide), h.2 _ (by simp [reservedNames]) (by decide),
    h.2 _ (by simp [reservedNames]) (by decide), h.1⟩

end SingleKindMaps

section Kinds

variable {R : Type} [CommRing R]

/-- C3: order sensitivity. For a parentless instancer with identity level
transform whose primvar map holds a translation and a rotation buffer and
neither scales nor full matrices, at every position where both samples
succeed, with translation matrix `T` and rotation matrix `R`, the result is
`R * T`; and there are `T` and `R` for which `R * T` differs from `T * R`. -/
theorem C3_order_sensitivity (S : Hd_USTC_CGBufferSampler R) (delegate : HdSceneDelegate R)
    (self : Hd_USTC_CG_Instancer R) (prototypeId : SdfPath) (fuel : Nat)
    (translations rotations : HdVtBufferSource R) (i : Nat) (t : GfVec3f R) (q : GfVec4f R)
    (hroot : SdfPath.IsEmpty self.parentId = true)
    (hlevel : delegate.GetInstancerTransform self.id = 1)
    (htranslations : self._primvarMap HdInstancerTokens.instanceTranslations = some translations)
    (hrotations : self._primvarMap HdInstancerTokens.instanceRotations = some rotations)
    (hscales : self._primvarMap HdInstancerTokens.instanceScales = none)
    (htransforms : self._primvarMap HdInstancerTokens.instanceTransforms = none)
    (hi : i < (delegate.GetInstanceIndices self.id prototypeId).length)
    (ht : S.SampleVec3f translations (delegate.GetInstanceIndices self.id prototypeId)[i] = some t)
    (hq : S.SampleVec4f rotations (delegate.GetInstanceIndices self.id prototypeId)[i] = some q) :
    (∃ result : VtMatrix4dArray R,
      ComputeInstanceTransforms S delegate (fuel + 1) self prototypeId = some ⟨result, 0⟩ ∧
      result[i]? = some (SetRotate q * SetTranslate t)) ∧
    ∃ (t0 : GfVec3f ℤ) (q0 : GfVec4f ℤ),
      SetRotate q0 * SetTranslate t0 ≠ SetTranslate t0 * SetRotate q0 := by
  obtain ⟨_, hg⟩ := levelTransforms_spec S delegate self prototypeId
  refine ⟨⟨levelTransforms S delegate self prototypeId, ?_, ?_⟩,
    ![1, 0, 0], ![0, 0, 0, 1], by decide⟩
  · simp [ComputeInstanceTransforms, hroot]
  · rw [hg i hi, List.getD_eq_getElem _ _ hi]
    simp [matrixSample, scaleSample, rotationSample, translationSample, htranslations,
      hrotations, hscales, htransforms, ht, hq, hlevel, applyContribution]

/-- C3 at the order scene: the result is `R * T`, and differs from `T * R`. -/
theorem C3_order_sensitivity_witness :
    SdfPath.IsEmpty orderInstancer.parentId = true ∧
    orderDelegate.GetInstancerTransform orderInstancer.id = 1 ∧
    (∃ result : VtMatrix4dArray ℤ,
      ComputeInstanceTransforms specSampler orderDelegate 1 orderInstancer "/proto" =
        some ⟨result, 0⟩ ∧
      result[0]? = some (SetRotate ![0, 0, 0, 1] * SetTranslate ![1, 0, 0]) ∧
      result[0]? ≠ some (SetTranslate ![1, 0, 0] * SetRotate ![0, 0, 0, 1])) := by
  obtain ⟨⟨result, hresult, h0⟩, _⟩ :=
    C3_order_sensitivity specSampler orderDelegate orderInstancer "/proto" 0
      ⟨HdInstancerTokens.instanceTranslations, .vec3fArray [![1, 0, 0]]⟩
      ⟨HdInstancerTokens.instanceRotations, .vec4fArray [![0, 0, 0, 1]]⟩
      0 ![1, 0, 0] ![0, 0, 0, 1] (by decide) rfl rfl rfl rfl rfl (by decide) rfl rfl
  refine ⟨by decide, rfl, result, hresult, h0, ?_⟩
  rw [h0]
  intro h
  exact absurd (Option.some.inj h) (by decide)

/-- C9: for an instancer with no parent whose primvar map holds none of the
four reserved names, the call returns `n` copies of the level transform,
`n` the length of the instance index list. -/
theorem C9_no_buffers (S : Hd_USTC_CGBufferSampler R) (delegate : HdSceneDelegate R)
    (self : Hd_USTC_CG_Instancer R) (prototypeId : SdfPath) (fuel : Nat)
    (hroot : SdfPath.IsEmpty self.parentId = true)
    (htranslations : self._primvarMap HdInstancerTokens.instanceTranslations = none)
    (hrotations : self._primvarMap HdInstancerTokens.instanceRotations = none)
    (hscales : self._primvarMap HdInstancerTokens.instanceScales = none)
    (htransforms : self._primvarMap HdInstancerTokens.instanceTransforms = none) :
    ComputeInstanceTransforms S delegate (fuel + 1) self prototypeId =
      some ⟨List.replicate (delegate.GetInstanceIndices self.id prototypeId).length
        (delegate.GetInstancerTransform self.id), 0⟩ := by
  simp [ComputeInstanceTransforms, hroot, levelTransforms, applyTranslations, applyRotations,
    applyScales, applyTransforms, PrimvarMap.count, htranslations, hrotations, hscales,
    htransforms, initLoop_eq]

/-- C9 at a bare root instancer with three instance indices and a level
transform that is not the identity. -/
theorem C9_no_buffers_witness :
    SdfPath.IsEmpty bareInstancer.parentId = true ∧
    bareInstancer._primvarMap HdInstancerTokens.instanceTranslations = none ∧
    bareInstancer._primvarMap HdInstancerTokens.instanceRotations = none ∧
    bareInstancer._primvarMap HdInstancerTokens.instanceScales = none ∧
    bareInstancer._primvarMap HdInstancerTokens.instanceTransforms = none ∧
    ComputeInstanceTransforms specSampler bareDelegate 1 bareInstancer "/proto" =
      some ⟨List.replicate (bareDelegate.GetInstanceIndices bareInstancer.id "/proto").length
        (bareDelegate.GetInstancerTransform bareInstancer.id), 0⟩ :=
  ⟨by decide, rfl, rfl, rfl, rfl,
    C9_no_buffers specSampler bareDelegate bareInstancer "/proto" 0 (by decide) rfl rfl rfl rfl⟩

/-- C10: single-kind composition. For a parentless instancer with identity
level transform whose primvar map holds a buffer for one kind only, the
result at every position `i` whose sample at `idx[i]` succeeds is that kind's
matrix for `idx[i]`: the translation matrix, the rotation matrix of the
quaternion, the axis-aligned scale matrix, or the sampled matrix itself. -/
theorem C10_single_kind (S : Hd_USTC_CGBufferSampler R) (delegate : HdSceneDelegate R)
    (self : Hd_USTC_CG_Instancer R) (prototypeId : SdfPath) (fuel : Nat)
    (buffer : HdVtBufferSource R) (i : Nat)
    (hroot : SdfPath.IsEmpty self.parentId = true)
    (hlevel : delegate.GetInstancerTransform self.id = 1)
    (hi : i < (delegate.GetInstanceIndices self.id prototypeId).length) :
    (HoldsOnly self._primvarMap HdInstancerTokens.instanceTranslations buffer →
      ∀ v, S.SampleVec3f buffer (delegate.GetInstanceIndices self.id prototypeId)[i] = some v →
        ∃ result : VtMatrix4dArray R,
          ComputeInstanceTransforms S delegate (fuel + 1) self prototypeId = some ⟨result, 0⟩ ∧
          result.length = (delegate.GetInstanceIndices self.id prototypeId).length ∧
          result[i]? = some (SetTranslate v)) ∧
    (HoldsOnly self._primvarMap HdInstancerTokens.instanceRotations buffer →
      ∀ q, S.SampleVec4f buffer (delegate.GetInstanceIndices self.id prototypeId)[i] = some q →
        ∃ result : VtMatrix4dArray R,
          ComputeInstanceTransforms S delegate (fuel + 1) self prototypeId = some ⟨result, 0⟩ ∧
          result.length = (delegate.GetInstanceIndices self.id prototypeId).length ∧
          result[i]? = some (SetRotate q)) ∧
    (HoldsOnly self._primvarMap HdInstancerTokens.instanceScales buffer →
      ∀ v, S.SampleVec3f buffer (delegate.GetInstanceIndices self.id prototypeId)[i] = some v →
        ∃ result : VtMatrix4dArray R,
          ComputeInstanceTransforms S delegate (fuel + 1) self prototypeId = some ⟨result, 0⟩ ∧
          result.length = (delegate.GetInstanceIndices self.id prototypeId).length ∧
          result[i]? = some (SetScale v)) ∧
    (HoldsOnly self._primvarMap HdInstancerTokens.instanceTransforms buffer →
      ∀ mat,
        S.SampleMatrix4d buffer (delegate.GetInstanceIndices self.id prototypeId)[i] = some mat →
        ∃ result : VtMatrix4dArray R,
          ComputeInstanceTransforms S delegate (fuel + 1) self prototypeId = some ⟨result, 0⟩ ∧
          result.length = (delegate.GetInstanceIndices self.id prototypeId).length ∧
          result[i]? = some mat) := by
  obtain ⟨hl, hg⟩ := levelTransforms_spec S delegate self prototypeId
  have hrun : ComputeInstanceTransforms S delegate (fuel + 1) self prototypeId =
      some ⟨levelTransforms S delegate self prototypeId, 0⟩ := by
    simp [ComputeInstanceTransforms, hroot]
  have hslot := hg i hi
  rw [List.getD_eq_getElem _ _ hi] at hslot
  refine ⟨fun h v hv => ?_, fun h q hq => ?_, fun h v hv => ?_, fun h mat hmat => ?_⟩
  · obtain ⟨h1, h2, h3, h4⟩ := holdsOnly_translations h
    refine ⟨_, hrun, hl, ?_⟩
    rw [hslot]
    simp [matrixSample, scaleSample, rotationSample, translationSample, h1, h2, h3, h4, hv,
      hlevel, applyContribution]
  · obtain ⟨h1, h2, h3, h4⟩ := holdsOnly_rotations h
    refine ⟨_, hrun, hl, ?_⟩
    rw [hslot]
    simp [matrixSample, scaleSample, rotationSample, translationSample, h1, h2, h3, h4, hq,
      hlevel, applyContribution]
  · obtain ⟨h1, h2, h3, h4⟩ := holdsOnly_scales h
    refine ⟨_, hrun, hl, ?_⟩
    rw [hslot]
    simp [matrixSample, scaleSample, rotationSample, translationSample, h1, h2, h3, h4, hv,
      hlevel, applyContribution]
  · obtain ⟨h1, h2, h3, h4⟩ := holdsOnly_transforms h
    refine ⟨_, hrun, hl, ?_⟩
    rw [hslot]
    simp [matrixSample, scaleSample, rotationSample, translationSample, h1, h2, h3, h4, hmat,
      hlevel, applyContribution]

/-- The concrete scenario holds translations only. -/
theorem scenario_holdsOnly :
    HoldsOnly scenarioPrimvarMap HdInstancerTokens.instanceTranslations
      ⟨HdInstancerTokens.instanceTranslations, .vec3fArray [![1, 0, 0], ![0, 1, 0]]⟩ := by
  refine ⟨rfl, fun other hmem hne => ?_⟩
  simp [scenarioPrimvarMap, hne]

/-- C10 at the concrete scenario: translation buffer `[(1,0,0), (0,1,0)]` with
indices `[0, 1]` yields the translations by `(1,0,0)` and by `(0,1,0)`, in
that order. -/
theorem C10_single_kind_witness :
    SdfPath.IsEmpty scenarioInstancer.parentId = true ∧
    scenarioDelegate.GetInstancerTransform scenarioInstancer.id = 1 ∧
    scenarioDelegate.GetInstanceIndices scenarioInstancer.id "/proto" = [0, 1] ∧
    HoldsOnly scenarioInstancer._primvarMap HdInstancerTokens.instanceTranslations
      ⟨HdInstancerTokens.instanceTranslations, .vec3fArray [![1, 0, 0], ![0, 1, 0]]⟩ ∧
    (∃ result : VtMatrix4dArray ℤ,
      ComputeInstanceTransforms specSampler scenarioDelegate 1 scenarioInstancer "/proto" =
        some ⟨result, 0⟩ ∧
      result.length = 2 ∧ result[0]? = some (SetTranslate ![1, 0, 0])) ∧
    (∃ result : VtMatrix4dArray ℤ,
      ComputeInstanceTransforms specSampler scenarioDelegate 1 scenarioInstancer "/proto" =
        some ⟨result, 0⟩ ∧
      result.length = 2 ∧ result[1]? = some (SetTranslate ![0, 1, 0])) :=
  ⟨by decide, rfl, rfl, scenario_holdsOnly,
    (C10_single_kind specSampler scenarioDelegate scenarioInstancer "/proto" 0
      ⟨HdInstancerTokens.instanceTranslations, .vec3fArray [![1, 0, 0], ![0, 1, 0]]⟩ 0
      (by decide) rfl (by decide)).1 scenario_holdsOnly ![1, 0, 0] rfl,
    (C10_single_kind specSampler scenarioDelegate scenarioInstancer "/proto" 0
      ⟨HdInstancerTokens.instanceTranslations, .vec3fArray [![1, 0, 0], ![0, 1, 0]]⟩ 1
      (by decide) rfl (by decide)).1 scenario_holdsOnly ![0, 1, 0] rfl⟩

end Kinds

section Nesting

variable {R : Type} [CommRing R]

/-- C2: nesting size law. For an instancer whose parent id is non-empty and
resolves, if the call on the parent for this instancer's id yields
`parentTransforms` of length `P` and this level's transforms have length `L`,
the call returns an array of length `P * L` whose entry `p * L + j` is
`transforms[j] * parentTransforms[p]` (parent index outer, local index
inner). -/
theorem C2_nesting_size_law (S : Hd_USTC_CGBufferSampler R) (delegate : HdSceneDelegate R)
    (self parentInstancer : Hd_USTC_CG_Instancer R) (prototypeId : SdfPath) (fuel : Nat)
    (parent : Computed R)
    (hparentId : SdfPath.IsEmpty self.parentId = false)
    (hresolve : delegate.GetInstancer self.parentId = some parentInstancer)
    (hparent : ComputeInstanceTransforms S delegate fuel parentInstancer self.id = some parent) :
    ∃ final : VtMatrix4dArray R,
      ComputeInstanceTransforms S delegate (fuel + 1) self prototypeId =
        some ⟨final, parent.verifyFailures⟩ ∧
      final.length =
        parent.transforms.length * (levelTransforms S delegate self prototypeId).length ∧
      ∀ (p j : Nat) (hp : p < parent.transforms.length)
        (hj : j < (levelTransforms S delegate self prototypeId).length),
        final[p * (levelTransforms S delegate self prototypeId).length + j]? =
          some ((levelTransforms S delegate self prototypeId)[j] * parent.transforms[p]) := by
  obtain ⟨hl, hg⟩ := nestLoop_spec parent.transforms (levelTransforms S delegate self prototypeId)
  refine ⟨nestLoop parent.transforms (levelTransforms S delegate self prototypeId), ?_, hl,
    fun p j hp hj => ?_⟩
  · simp [ComputeInstanceTransforms, hparentId, hresolve, hparent]
  · rw [hg p j hp hj, List.getD_eq_getElem _ _ hj, List.getD_eq_getElem _ _ hp]

/-- C2 at the nested scene: the parent `/P` yields three transforms, the child
`/P/I` two, and the result is laid out parent-major. -/
theorem C2_nesting_size_law_witness :
    SdfPath.IsEmpty nestedChild.parentId = false ∧
    nestedDelegate.GetInstancer nestedChild.parentId = some nestedParent ∧
    ComputeInstanceTransforms specSampler nestedDelegate 1 nestedParent nestedChild.id =
      some ⟨levelTransforms specSampler nestedDelegate nestedParent nestedChild.id, 0⟩ ∧
    (levelTransforms specSampler nestedDelegate nestedParent nestedChild.id).length = 3 ∧
    (levelTransforms specSampler nestedDelegate nestedChild "/proto").length = 2 ∧
    ∃ final : VtMatrix4dArray ℤ,
      ComputeInstanceTransforms specSampler nestedDelegate 2 nestedChild "/proto" =
        some ⟨final, 0⟩ ∧
      final.length =
        (levelTransforms specSampler nestedDelegate nestedParent nestedChild.id).length *
          (levelTransforms specSampler nestedDelegate nestedChild "/proto").length ∧
      ∀ (p j : Nat)
        (hp : p < (levelTransforms specSampler nestedDelegate nestedParent nestedChild.id).length)
        (hj : j < (levelTransforms specSampler nestedDelegate nestedChild "/proto").length),
        final[p * (levelTransforms specSampler nestedDelegate nestedChild "/proto").length + j]? =
          some ((levelTransforms specSampler nestedDelegate nestedChild "/proto")[j] *
            (levelTransforms specSampler nestedDelegate nestedParent nestedChild.id)[p]) :=
  ⟨by decide, rfl, rfl, by decide, by decide,
    C2_nesting_size_law specSampler nestedDelegate nestedChild nestedParent "/proto" 1
      ⟨levelTransforms specSampler nestedDelegate nestedParent nestedChild.id, 0⟩
      (by decide) rfl rfl⟩

/-- C4, refuted as stated: the orphan instancer names the parent `/Missing`,
which does not resolve, and the call still returns an array, of the local
size 2. -/
theorem C4_missing_parent_counterexample :
    SdfPath.IsEmpty orphanInstancer.parentId = false ∧
    scenarioDelegate.GetInstancer orphanInstancer.parentId = none ∧
    ∃ result : Computed ℤ,
      ComputeInstanceTransforms specSampler scenarioDelegate 1 orphanInstancer "/proto" =
        some result ∧
      result.transforms = [1, 1] ∧
      result.transforms.length =
        (scenarioDelegate.GetInstanceIndices orphanInstancer.id "/proto").length :=
  ⟨by decide, rfl, _, rfl, by decide, by decide⟩

/-- C4, amended: when the parent id is non-empty and does not resolve, the
call posts one failed `TF_VERIFY` and returns this level's transforms
unmodified, an array of the local size `n`. -/
theorem C4_missing_parent_returns_level (S : Hd_USTC_CGBufferSampler R)
    (delegate : HdSceneDelegate R) (self : Hd_USTC_CG_Instancer R) (prototypeId : SdfPath)
    (fuel : Nat) (hparentId : SdfPath.IsEmpty self.parentId = false)
    (hresolve : delegate.GetInstancer self.parentId = none) :
    ComputeInstanceTransforms S delegate (fuel + 1) self prototypeId =
        some ⟨levelTransforms S delegate self prototypeId, 1⟩ ∧
      (levelTransforms S delegate self prototypeId).length =
        (delegate.GetInstanceIndices self.id prototypeId).length := by
  refine ⟨?_, (levelTransforms_spec S delegate self prototypeId).1⟩
  simp [ComputeInstanceTransforms, hparentId, hresolve]

/-- C4, amended, at the orphan instancer. -/
theorem C4_missing_parent_returns_level_witness :
    SdfPath.IsEmpty orphanInstancer.parentId = false ∧
    scenarioDelegate.GetInstancer orphanInstancer.parentId = none ∧
    ComputeInstanceTransforms specSampler scenarioDelegate 1 orphanInstancer "/proto" =
        some ⟨levelTransforms specSampler scenarioDelegate orphanInstancer "/proto", 1⟩ ∧
      (levelTransforms specSampler scenarioDelegate orphanInstancer "/proto").length =
        (scenarioDelegate.GetInstanceIndices orphanInstancer.id "/proto").length :=
  ⟨by decide, rfl,
    C4_missing_parent_returns_level specSampler scenarioDelegate orphanInstancer "/proto" 0
      (by decide) rfl⟩

/-! ## Cyclic parent chains -/

theorem ancestor_add {R : Type} (delegate : HdSceneDelegate R) (m k : Nat) :
    ∀ (self : Hd_USTC_CG_Instancer R),
      ancestor delegate (m + k) self = (ancestor delegate m self).bind (ancestor delegate k) := by
  induction m with
  | zero => intro self; simp [ancestor]
  | succ m ih =>
    intro self
    have : m + 1 + k = (m + k) + 1 := by omega
    rw [this]
    simp only [ancestor]
    cases resolvedParent delegate self with
    | none => rfl
    | some p => simpa using ih p

theorem ancestor_isSome_of_add {R : Type} (delegate : HdSceneDelegate R) (n r : Nat)
    (self : Hd_USTC_CG_Instancer R) (h : (ancestor delegate (n + r) self).isSome = true) :
    (ancestor delegate n self).isSome = true := by
  rw [ancestor_add] at h
  cases hn : ancestor delegate n self with
  | none => simp [hn] at h
  | some a => rfl

theorem ancestor_loop {R : Type} (delegate : HdSceneDelegate R) (k : Nat)
    (a : Hd_USTC_CG_Instancer R) (h : ancestor delegate (k + 1) a = some a) (j : Nat) :
    ancestor delegate (j * (k + 1)) a = some a := by
  induction j with
  | zero => simp [ancestor]
  | succ j ih =>
    rw [Nat.succ_mul, ancestor_add, ih]
    simpa using h

/-- Along a parent chain that contains a cycle every ancestor exists. -/
theorem ancestor_isSome_of_cyclic {R : Type} (delegate : HdSceneDelegate R)
    (self : Hd_USTC_CG_Instancer R) (h : ParentChainCyclic delegate self) (n : Nat) :
    (ancestor delegate n self).isSome = true := by
  obtain ⟨m, k, a, hm, hk⟩ := h
  have hloop : ∀ r, (ancestor delegate r a).isSome = true := by
    intro r
    apply ancestor_isSome_of_add delegate r (r * k)
    have : r + r * k = r * (k + 1) := by ring
    rw [this, ancestor_loop delegate k a hk r]
    rfl
  by_cases hle : n ≤ m
  · apply ancestor_isSome_of_add delegate n (m - n)
    have : n + (m - n) = m := by omega
    rw [this, hm]
    rfl
  · have : n = m + (n - m) := by omega
    rw [this, ancestor_add, hm]
    simpa using hloop (n - m)

/-- An instancer whose parent chain never ends is never answered. -/
theorem compute_none_of_endless_chain (S : Hd_USTC_CGBufferSampler R)
    (delegate : HdSceneDelegate R) (fuel : Nat) :
    ∀ (self : Hd_USTC_CG_Instancer R) (prototypeId : SdfPath),
      (∀ n, (ancestor delegate n self).isSome = true) →
      ComputeInstanceTransforms S delegate fuel self prototypeId = none := by
  induction fuel with
  | zero => intro self prototypeId _; rfl
  | succ fuel ih =>
    intro self prototypeId h
    have h1 := h 1
    simp only [ancestor] at h1
    cases hp : resolvedParent delegate self with
    | none => simp [hp] at h1
    | some parentInstancer =>
      have hne : SdfPath.IsEmpty self.parentId = false := by
        unfold resolvedParent at hp
        cases hE : SdfPath.IsEmpty self.parentId
        · rfl
        · simp [hE] at hp
      have hres : delegate.GetInstancer self.parentId = some parentInstancer := by
        unfold resolvedParent at hp
        simpa [hne] using hp
      have hrec := ih parentInstancer self.id (fun n => by
        have := h (n + 1)
        simpa [ancestor, hp] using this)
      simp [ComputeInstanceTransforms, hne, hres, hrec]

/-- C5, refuted as stated: in the scene `A → B → A` the parent chain of `/A`
is cyclic and no call depth lets the call on `/A` return anything. -/
theorem C5_cycle_counterexample :
    ParentChainCyclic cycleDelegate cycleA ∧
    ¬ ∃ (fuel : Nat) (result : Computed ℤ),
      ComputeInstanceTransforms specSampler cycleDelegate fuel cycleA "/proto" = some result := by
  refine ⟨⟨0, 1, cycleA, rfl, rfl⟩, ?_⟩
  rintro ⟨fuel, result, h⟩
  rw [compute_none_of_endless_chain specSampler cycleDelegate fuel cycleA "/proto"
    (ancestor_isSome_of_cyclic cycleDelegate cycleA ⟨0, 1, cycleA, rfl, rfl⟩)] at h
  cases h

/-- C5, amended: there is no cycle detection. On a topology whose parent chain
contains a cycle the recursion descends for ever: whatever call depth is
allowed, the call has not returned. -/
theorem C5_cycle_never_returns (S : Hd_USTC_CGBufferSampler R) (delegate : HdSceneDelegate R)
    (self : Hd_USTC_CG_Instancer R) (prototypeId : SdfPath)
    (hcyclic : ParentChainCyclic delegate self) (fuel : Nat) :
    ComputeInstanceTransforms S delegate fuel self prototypeId = none :=
  compute_none_of_endless_chain S delegate fuel self prototypeId
    (ancestor_isSome_of_cyclic delegate self hcyclic)

/-- C5, amended, at the scene `A → B → A` with call depth 1000. -/
theorem C5_cycle_never_returns_witness :
    ParentChainCyclic cycleDelegate cycleA ∧
    ComputeInstanceTransforms specSampler cycleDelegate 1000 cycleA "/proto" = none :=
  ⟨⟨0, 1, cycleA, rfl, rfl⟩,
    C5_cycle_never_returns specSampler cycleDelegate cycleA "/proto"
      ⟨0, 1, cycleA, rfl, rfl⟩ 1000⟩

end Nesting

section Sparse

variable {R : Type} [CommRing R]

/-- One slot of a guarded block over a present buffer. -/
theorem guardedSlot (sample : Option (GfMatrix4d R)) (ts : VtMatrix4dArray R) (i : Nat)
    (hi : i < ts.length) :
    (sample = none → ts[i]?.map (applyContribution sample) = some ts[i]) ∧
    (∀ mat, sample = some mat → ts[i]?.map (applyContribution sample) = some (mat * ts[i])) := by
  rw [List.getElem?_eq_getElem hi]
  constructor
  · intro h
    subst h
    rfl
  · intro mat h
    subst h
    rfl

/-- C11: sparse-index fallback. For each kind whose buffer is present and every
index list, the kind's block leaves the running transform at a position
unchanged when the sample at its index fails, and replaces it by the kind's
matrix times the previous transform when the sample succeeds; what happens
at one position does not depend on the samples at the others. -/
theorem C11_sparse_index_fallback (S : Hd_USTC_CGBufferSampler R) (m : PrimvarMap R)
    (buffer : HdVtBufferSource R) (idx : VtIntArray) (ts : VtMatrix4dArray R) (i : Nat)
    (hi : i < idx.length) (hts : i < ts.length) :
    (m HdInstancerTokens.instanceTranslations = some buffer →
      (S.SampleVec3f buffer idx[i] = none → (applyTranslations S m idx ts)[i]? = some ts[i]) ∧
      (∀ v, S.SampleVec3f buffer idx[i] = some v →
        (applyTranslations S m idx ts)[i]? = some (SetTranslate v * ts[i]))) ∧
    (m HdInstancerTokens.instanceRotations = some buffer →
      (S.SampleVec4f buffer idx[i] = none → (applyRotations S m idx ts)[i]? = some ts[i]) ∧
      (∀ q, S.SampleVec4f buffer idx[i] = some q →
        (applyRotations S m idx ts)[i]? = some (SetRotate q * ts[i]))) ∧
    (m HdInstancerTokens.instanceScales = some buffer →
      (S.SampleVec3f buffer idx[i] = none → (applyScales S m idx ts)[i]? = some ts[i]) ∧
      (∀ v, S.SampleVec3f buffer idx[i] = some v →
        (applyScales S m idx ts)[i]? = some (SetScale v * ts[i]))) ∧
    (m HdInstancerTokens.instanceTransforms = some buffer →
      (S.SampleMatrix4d buffer idx[i] = none → (applyTransforms S m idx ts)[i]? = some ts[i]) ∧
      (∀ mat, S.SampleMatrix4d buffer idx[i] = some mat →
        (applyTransforms S m idx ts)[i]? = some (mat * ts[i]))) := by
  have h1 := (applyTranslations_spec S m idx ts).2 i
  have h2 := (applyRotations_spec S m idx ts).2 i
  have h3 := (applyScales_spec S m idx ts).2 i
  have h4 := (applyTransforms_spec S m idx ts).2 i
  rw [if_pos hi, List.getD_eq_getElem _ _ hi] at h1 h2 h3 h4
  refine ⟨fun hm => ?_, fun hm => ?_, fun hm => ?_, fun hm => ?_⟩
  · rw [h1]
    refine ⟨fun h => ?_, fun v h => ?_⟩
    · exact (guardedSlot _ ts i hts).1 (by simp [translationSample, hm, h])
    · exact (guardedSlot _ ts i hts).2 _ (by simp [translationSample, hm, h])
  · rw [h2]
    refine ⟨fun h => ?_, fun v h => ?_⟩
    · exact (guardedSlot _ ts i hts).1 (by simp [rotationSample, hm, h])
    · exact (guardedSlot _ ts i hts).2 _ (by simp [rotationSample, hm, h])
  · rw [h3]
    refine ⟨fun h => ?_, fun v h => ?_⟩
    · exact (guardedSlot _ ts i hts).1 (by simp [scaleSample, hm, h])
    · exact (guardedSlot _ ts i hts).2 _ (by simp [scaleSample, hm, h])
  · rw [h4]
    refine ⟨fun h => ?_, fun v h => ?_⟩
    · exact (guardedSlot _ ts i hts).1 (by simp [matrixSample, hm, h])
    · exact (guardedSlot _ ts i hts).2 _ (by simp [matrixSample, hm, h])

/-- C11 at the sparse scene: index 7 is outside the two translations, so the
middle transform is kept, while its neighbours are translated. -/
theorem C11_sparse_index_fallback_witness :
    specSampler.SampleVec3f
        (⟨HdInstancerTokens.instanceTranslations, .vec3fArray [![1, 0, 0], ![0, 1, 0]]⟩ :
          HdVtBufferSource ℤ) 7 = none ∧
    (applyTranslations specSampler sparsePrimvarMap sparseIndices sparseTransforms)[1]? =
      some (SetScale ![3, 3, 3]) ∧
    (applyTranslations specSampler sparsePrimvarMap sparseIndices sparseTransforms)[0]? =
      some (SetTranslate ![0, 1, 0] * SetScale ![2, 2, 2]) ∧
    (applyTranslations specSampler sparsePrimvarMap sparseIndices sparseTransforms)[2]? =
      some (SetTranslate ![1, 0, 0] * SetScale ![4, 4, 4]) :=
  ⟨rfl,
    ((C11_sparse_index_fallback specSampler sparsePrimvarMap
      ⟨HdInstancerTokens.instanceTranslations, .vec3fArray [![1, 0, 0], ![0, 1, 0]]⟩
      sparseIndices sparseTransforms 1 (by decide) (by decide)).1 rfl).1 rfl,
    ((C11_sparse_index_fallback specSampler sparsePrimvarMap
      ⟨HdInstancerTokens.instanceTranslations, .vec3fArray [![1, 0, 0], ![0, 1, 0]]⟩
      sparseIndices sparseTransforms 0 (by decide) (by decide)).1 rfl).2 ![0, 1, 0] rfl,
    ((C11_sparse_index_fallback specSampler sparsePrimvarMap
      ⟨HdInstancerTokens.instanceTranslations, .vec3fArray [![1, 0, 0], ![0, 1, 0]]⟩
      sparseIndices sparseTransforms 2 (by decide) (by decide)).1 rfl).2 ![1, 0, 0] rfl⟩

end Sparse

section Idempotence

variable {R : Type}

/-- C12: sync idempotence. Applying `Sync` twice in succession with the same
dirty set and the same fetch results yields the same primvar map as applying
it once: the same value, present or absent, under every name. -/
theorem C12_sync_idempotent (env : SyncInputs R) (m : PrimvarMap R) :
    Sync env (Sync env m) = Sync env m ∧
    ∀ name, Sync env (Sync env m) name = Sync env m name := by
  have h : ∀ name, Sync env (Sync env m) name = Sync env m name := by
    intro name
    unfold Sync
    cases env.IsAnyPrimvarDirty with
    | false => simp
    | true =>
      simp only [if_true]
      rw [_SyncPrimvars_apply, _SyncPrimvars_apply]
      split <;> rfl
  exact ⟨funext h, h⟩

end Idempotence

section Chains

variable {R : Type} [CommRing R]

theorem resolvedParent_eq_some {R : Type} (delegate : HdSceneDelegate R)
    (self parent : Hd_USTC_CG_Instancer R) (h : resolvedParent delegate self = some parent) :
    SdfPath.IsEmpty self.parentId = false ∧ delegate.GetInstancer self.parentId = some parent := by
  unfold resolvedParent at h
  cases hE : SdfPath.IsEmpty self.parentId
  · exact ⟨rfl, by simpa [hE] using h⟩
  · simp [hE] at h

theorem compute_of_resolvedParent_none (S : Hd_USTC_CGBufferSampler R)
    (delegate : HdSceneDelegate R) (self : Hd_USTC_CG_Instancer R) (prototypeId : SdfPath)
    (fuel : Nat) (h : resolvedParent delegate self = none) :
    ∃ failures, ComputeInstanceTransforms S delegate (fuel + 1) self prototypeId =
      some ⟨levelTransforms S delegate self prototypeId, failures⟩ := by
  unfold resolvedParent at h
  cases hE : SdfPath.IsEmpty self.parentId
  · have hres : delegate.GetInstancer self.parentId = none := by simpa [hE] using h
    exact ⟨1, by simp [ComputeInstanceTransforms, hE, hres]⟩
  · exact ⟨0, by simp [ComputeInstanceTransforms, hE]⟩

theorem compute_of_resolvedParent_some (S : Hd_USTC_CGBufferSampler R)
    (delegate : HdSceneDelegate R) (self parent : Hd_USTC_CG_Instancer R)
    (prototypeId : SdfPath) (fuel : Nat) (h : resolvedParent delegate self = some parent)
    (above : Computed R)
    (habove : ComputeInstanceTransforms S delegate fuel parent self.id = some above) :
    ComputeInstanceTransforms S delegate (fuel + 1) self prototypeId =
      some ⟨nestLoop above.transforms (levelTransforms S delegate self prototypeId),
        above.verifyFailures⟩ := by
  obtain ⟨hE, hres⟩ := resolvedParent_eq_some delegate self parent h
  simp [ComputeInstanceTransforms, hE, hres, habove]

/-- Along a parent chain that ends after `d` steps the call returns, and its
array is empty as soon as one level has no instance index. -/
theorem compute_of_ended_chain (S : Hd_USTC_CGBufferSampler R) (delegate : HdSceneDelegate R)
    (extra : Nat) (d : Nat) :
    ∀ (self : Hd_USTC_CG_Instancer R) (prototypeId : SdfPath),
      (ancestor delegate d self).isSome = true → ancestor delegate (d + 1) self = none →
      ∃ result, ComputeInstanceTransforms S delegate (d + extra + 1) self prototypeId =
          some result ∧
        ∀ k, k ≤ d → levelIndices delegate k self prototypeId = some [] →
          result.transforms = [] := by
  induction d with
  | zero =>
    intro self prototypeId _ hend
    have hnone : resolvedParent delegate self = none := by
      cases hp : resolvedParent delegate self with
      | none => rfl
      | some p => simp [ancestor, hp] at hend
    obtain ⟨failures, hrun⟩ :=
      compute_of_resolvedParent_none S delegate self prototypeId (0 + extra) hnone
    refine ⟨_, hrun, fun k hk hempty => ?_⟩
    have hk0 : k = 0 := by omega
    subst hk0
    simp only [levelIndices, Option.some.injEq] at hempty
    have hlen := (levelTransforms_spec S delegate self prototypeId).1
    rw [hempty] at hlen
    exact List.eq_nil_of_length_eq_zero hlen
  | succ d ih =>
    intro self prototypeId hsome hend
    cases hp : resolvedParent delegate self with
    | none => simp [ancestor, hp] at hsome
    | some parent =>
      have hsome2 : (ancestor delegate d parent).isSome = true := by
        simpa [ancestor, hp] using hsome
      have hend2 : ancestor delegate (d + 1) parent = none := by
        have := hend
        rw [ancestor, hp] at this
        simpa using this
      obtain ⟨above, habove, hzero⟩ := ih parent self.id hsome2 hend2
      have hfuel : d + 1 + extra + 1 = (d + extra + 1) + 1 := by omega
      rw [hfuel]
      refine ⟨_, compute_of_resolvedParent_some S delegate self parent prototypeId _ hp above
        habove, fun k hk hempty => ?_⟩
      obtain ⟨hl, _⟩ := nestLoop_spec above.transforms
        (levelTransforms S delegate self prototypeId)
      apply List.eq_nil_of_length_eq_zero
      show (nestLoop above.transforms (levelTransforms S delegate self prototypeId)).length = 0
      rw [hl]
      cases k with
      | zero =>
        simp only [levelIndices, Option.some.injEq] at hempty
        have hlen := (levelTransforms_spec S delegate self prototypeId).1
        rw [hempty] at hlen
        simp at hlen
        simp [hlen]
      | succ k =>
        have hk2 : k ≤ d := by omega
        have hempty2 : levelIndices delegate k parent self.id = some [] := by
          simpa [levelIndices, hp] using hempty
        rw [hzero k hk2 hempty2]
        simp

/-- C13: zero-instance edge case. If the parent chain of the instancer ends
after `d` steps and the instance index list is empty at one of its levels
(this instancer's list for the prototype, or an ancestor's list for the
instancer below it), the call returns a zero-length array, whatever the other
levels produce. -/
theorem C13_zero_instances (S : Hd_USTC_CGBufferSampler R) (delegate : HdSceneDelegate R)
    (self : Hd_USTC_CG_Instancer R) (prototypeId : SdfPath) (d k extra : Nat)
    (hchain : (ancestor delegate d self).isSome = true)
    (hend : ancestor delegate (d + 1) self = none)
    (hk : k ≤ d) (hempty : levelIndices delegate k self prototypeId = some []) :
    ∃ result, ComputeInstanceTransforms S delegate (d + extra + 1) self prototypeId =
        some result ∧
      result.transforms = [] ∧ result.transforms.length = 0 := by
  obtain ⟨result, hrun, hzero⟩ :=
    compute_of_ended_chain S delegate extra d self prototypeId hchain hend
  have h := hzero k hk hempty
  exact ⟨result, hrun, h, by rw [h]; rfl⟩

/-- C13 at the zero scene: the parent instances the child zero times, the
child has two instance indices, and the result is empty. -/
theorem C13_zero_instances_witness :
    (ancestor zeroDelegate 1 nestedChild).isSome = true ∧
    ancestor zeroDelegate 2 nestedChild = none ∧
    levelIndices zeroDelegate 0 nestedChild "/proto" = some [0, 1] ∧
    levelIndices zeroDelegate 1 nestedChild "/proto" = some [] ∧
    ∃ result, ComputeInstanceTransforms specSampler zeroDelegate 2 nestedChild "/proto" =
        some result ∧
      result.transforms = [] ∧ result.transforms.length = 0 :=
  ⟨rfl, rfl, rfl, rfl,
    C13_zero_instances specSampler zeroDelegate nestedChild "/proto" 1 1 0 rfl rfl
      (by decide) rfl⟩

theorem chainProduct_cons (t : VtMatrix4dArray R) (ts : List (VtMatrix4dArray R)) (j : Nat)
    (js : List Nat) (b : GfMatrix4d R) (h : chainProduct ts js = some b) :
    chainProduct (t :: ts) (j :: js) = (t[j]?).map (fun a => a * b) := by
  cases ts with
  | nil => simp [chainProduct] at h
  | cons t2 ts2 =>
    cases js with
    | nil =>
      cases ts2 <;> simp [chainProduct] at h
    | cons j2 js2 =>
      rw [chainProduct, h]
      · cases t[j]? <;> rfl
      · simp

/-- Along a parent chain that reaches a root after `d` steps the call returns
the closed form. -/
theorem compute_of_rooted_chain (S : Hd_USTC_CGBufferSampler R) (delegate : HdSceneDelegate R)
    (extra : Nat) (d : Nat) :
    ∀ (self : Hd_USTC_CG_Instancer R) (prototypeId : SdfPath),
      (∃ root, ancestor delegate d self = some root ∧ SdfPath.IsEmpty root.parentId = true) →
      ∃ result : VtMatrix4dArray R,
        ComputeInstanceTransforms S delegate (d + extra + 1) self prototypeId =
          some ⟨result, 0⟩ ∧
        result.length = ((chainLevels S delegate d self prototypeId).map List.length).prod ∧
        ∀ js, List.Forall₂ (fun t j => j < t.length)
            (chainLevels S delegate d self prototypeId) js →
          ∃ mat, chainProduct (chainLevels S delegate d self prototypeId) js = some mat ∧
            result[mixedRadixIndex
              ((chainLevels S delegate d self prototypeId).map List.length) js]? = some mat := by
  induction d with
  | zero =>
    rintro self prototypeId ⟨root, hroot, hE⟩
    simp only [ancestor, Option.some.injEq] at hroot
    subst hroot
    refine ⟨levelTransforms S delegate self prototypeId, ?_, ?_, ?_⟩
    · simp [ComputeInstanceTransforms, hE]
    · simp [chainLevels]
    · intro js hjs
      simp only [chainLevels] at hjs ⊢
      cases hjs with
      | cons hj hrest =>
        rename_i j0 js0
        cases hrest
        refine ⟨(levelTransforms S delegate self prototypeId)[j0], ?_, ?_⟩
        · simp only [chainProduct]
          exact List.getElem?_eq_getElem hj
        · simp [mixedRadixIndex]
  | succ d ih =>
    rintro self prototypeId ⟨root, hroot, hE⟩
    cases hp : resolvedParent delegate self with
    | none => simp [ancestor, hp] at hroot
    | some parent =>
      have hroot2 : ancestor delegate d parent = some root := by
        simpa [ancestor, hp] using hroot
      obtain ⟨above, habove, hlen, hform⟩ := ih parent self.id ⟨root, hroot2, hE⟩
      have hfuel : d + 1 + extra + 1 = (d + extra + 1) + 1 := by omega
      rw [hfuel]
      obtain ⟨hl, hg⟩ := nestLoop_spec above (levelTransforms S delegate self prototypeId)
      have hlevels : chainLevels S delegate (d + 1) self prototypeId =
          levelTransforms S delegate self prototypeId ::
            chainLevels S delegate d parent self.id := by
        simp [chainLevels, hp]
      refine ⟨nestLoop above (levelTransforms S delegate self prototypeId), ?_, ?_, ?_⟩
      · exact compute_of_resolvedParent_some S delegate self parent prototypeId _ hp
          ⟨above, 0⟩ habove
      · rw [hl, hlevels, List.map_cons, List.prod_cons, hlen, Nat.mul_comm]
      · intro js hjs
        rw [hlevels] at hjs ⊢
        cases hjs with
        | cons hj hrest =>
          rename_i j0 js0
          obtain ⟨mat, hmat, hslot⟩ := hform js0 hrest
          have hp0 : mixedRadixIndex
              ((chainLevels S delegate d parent self.id).map List.length) js0 < above.length := by
            obtain ⟨h, _⟩ := List.getElem?_eq_some.mp hslot
            exact h
          refine ⟨(levelTransforms S delegate self prototypeId)[j0] * mat, ?_, ?_⟩
          · rw [chainProduct_cons _ _ _ _ _ hmat, List.getElem?_eq_getElem hj]
            rfl
          · simp only [List.map_cons, mixedRadixIndex]
            rw [hg _ _ hp0 hj, List.getD_eq_getElem _ _ hj, List.getD_eq_getElem?_getD, hslot]
            rfl

/-- C15: closed form across recursion depth. For a chain `I_0 -> ... -> I_d` in
which every parent resolves and `I_d` is a root, with local transform arrays
`t_k` of length `n_k`, the recursion terminates, the result has length
`n_0 * ... * n_d`, and its entry at the mixed-radix index of the digits
`j_0, ..., j_d` (root digit most significant) is
`t_0[j_0] * (t_1[j_1] * (... * t_d[j_d]))`. -/
theorem C15_closed_form (S : Hd_USTC_CGBufferSampler R) (delegate : HdSceneDelegate R)
    (self root : Hd_USTC_CG_Instancer R) (prototypeId : SdfPath) (d extra : Nat)
    (hchain : ancestor delegate d self = some root)
    (hroot : SdfPath.IsEmpty root.parentId = true) :
    ∃ result : VtMatrix4dArray R,
      ComputeInstanceTransforms S delegate (d + extra + 1) self prototypeId =
        some ⟨result, 0⟩ ∧
      result.length = ((chainLevels S delegate d self prototypeId).map List.length).prod ∧
      ∀ js, List.Forall₂ (fun t j => j < t.length)
          (chainLevels S delegate d self prototypeId) js →
        ∃ mat, chainProduct (chainLevels S delegate d self prototypeId) js = some mat ∧
          result[mixedRadixIndex
            ((chainLevels S delegate d self prototypeId).map List.length) js]? = some mat :=
  compute_of_rooted_chain S delegate extra d self prototypeId ⟨root, hchain, hroot⟩

/-- C15 at the nested scene (depth 1, sizes 2 and 3): the entry at index
`2 * 2 + 1 = 5` is `t_0[1] * t_1[2]`, the translation by `(0,1,0)` times the
translation by `(0,0,7)`. -/
theorem C15_closed_form_witness :
    ancestor nestedDelegate 1 nestedChild = some nestedParent ∧
    SdfPath.IsEmpty nestedParent.parentId = true ∧
    (chainLevels specSampler nestedDelegate 1 nestedChild "/proto").map List.length = [2, 3] ∧
    mixedRadixIndex [2, 3] [1, 2] = 5 ∧
    ∃ result : VtMatrix4dArray ℤ,
      ComputeInstanceTransforms specSampler nestedDelegate 2 nestedChild "/proto" =
        some ⟨result, 0⟩ ∧
      result.length = 6 ∧
      result[5]? = some (SetTranslate ![0, 1, 0] * SetTranslate ![0, 0, 7]) := by
  obtain ⟨result, hrun, hlen, hform⟩ :=
    C15_closed_form specSampler nestedDelegate nestedChild nestedParent "/proto" 1 0 rfl
      (by decide)
  have hsizes :
      (chainLevels specSampler nestedDelegate 1 nestedChild "/proto").map List.length = [2, 3] := by
    decide
  have hlevels : chainLevels specSampler nestedDelegate 1 nestedChild "/proto" =
      [[SetTranslate ![1, 0, 0], SetTranslate ![0, 1, 0]],
       [SetTranslate ![0, 0, 5], SetTranslate ![0, 0, 6], SetTranslate ![0, 0, 7]]] := by
    decide
  refine ⟨rfl, by decide, hsizes, rfl, result, hrun, ?_, ?_⟩
  · rw [hlen, hsizes]
    rfl
  · obtain ⟨mat, hmat, hslot⟩ := hform [1, 2] (by
      rw [hlevels]
      exact List.Forall₂.cons (by decide) (List.Forall₂.cons (by decide) List.Forall₂.nil))
    rw [hsizes] at hslot
    rw [hlevels] at hmat
    have h5 : mixedRadixIndex [2, 3] [1, 2] = 5 := rfl
    rw [h5] at hslot
    rw [hslot, ← hmat]
    rfl

end Chains

section ReadOnly

variable {R : Type} [CommRing R]

/-- A guarded block hands the map back as it received it. -/
theorem guardedBlockSt_map (name : TfToken)
    (sample : HdVtBufferSource R → Int → Option (GfMatrix4d R)) (m m1 : PointerMap R)
    (idx : VtIntArray) (ts ts1 : VtMatrix4dArray R)
    (h : guardedBlockSt name sample m idx ts = some (ts1, m1)) : m1 = m := by
  unfold guardedBlockSt PointerMap.count PointerMap.subscript at h
  cases hm : m name with
  | none =>
    simp [hm] at h
    exact h.2.symm
  | some pointer =>
    cases pointer with
    | none => simp [hm] at h
    | some buffer =>
      simp [hm] at h
      exact h.2.symm

/-- One level hands the map of the object back as it received it. -/
theorem levelTransformsSt_map (S : Hd_USTC_CGBufferSampler R) (delegate : HdSceneDelegate R)
    (this : InstancerObject R) (prototypeId : SdfPath) (ts : VtMatrix4dArray R)
    (m : PointerMap R) (h : levelTransformsSt S delegate this prototypeId = some (ts, m)) :
    m = this._primvarMap := by
  unfold levelTransformsSt at h
  simp only [Option.bind_eq_some, Prod.exists] at h
  obtain ⟨t1, m1, h1, t2, m2, h2, t3, m3, h3, h4⟩ := h
  have e1 := guardedBlockSt_map _ _ _ _ _ _ _ h1
  have e2 := guardedBlockSt_map _ _ _ _ _ _ _ h2
  have e3 := guardedBlockSt_map _ _ _ _ _ _ _ h3
  have e4 := guardedBlockSt_map _ _ _ _ _ _ _ h4
  rw [e4, e3, e2, e1]

/-- A call hands the render index back as it received it. -/
theorem ComputeInstanceTransformsSt_index (S : Hd_USTC_CGBufferSampler R)
    (delegate : HdSceneDelegate R) (fuel : Nat) :
    ∀ (index index2 : RenderIndex R) (self prototypeId : SdfPath) (result : Computed R),
      ComputeInstanceTransformsSt S delegate fuel index self prototypeId =
        some (result, index2) → index2 = index := by
  induction fuel with
  | zero =>
    intro index index2 self prototypeId result h
    simp [ComputeInstanceTransformsSt] at h
  | succ fuel ih =>
    intro index index2 self prototypeId result h
    unfold ComputeInstanceTransformsSt at h
    cases hthis : index self with
    | none => simp [hthis] at h
    | some this =>
      cases hlevel : levelTransformsSt S delegate this prototypeId with
      | none => simp [hthis, hlevel] at h
      | some level =>
        obtain ⟨ts, m⟩ := level
        have hm := levelTransformsSt_map S delegate this prototypeId ts m hlevel
        have hindex1 : Function.update index self (some { this with _primvarMap := m }) =
            index := by
          rw [hm, ← hthis]
          exact Function.update_eq_self self index
        simp only [hthis, hlevel, hindex1] at h
        cases hE : SdfPath.IsEmpty this.parentId with
        | true =>
          simp [hE] at h
          exact h.2.symm
        | false =>
          simp only [hE] at h
          cases hparent : index this.parentId with
          | none =>
            simp [hparent] at h
            exact h.2.symm
          | some parentObject =>
            simp only [hparent] at h
            cases hrec : ComputeInstanceTransformsSt S delegate fuel index this.parentId
                this.id with
            | none => simp [hrec] at h
            | some above =>
              obtain ⟨parent, index3⟩ := above
              have h3 := ih index index3 this.parentId this.id parent hrec
              simp [hrec] at h
              rw [← h.2, h3]

/-- On a map whose every entry owns a buffer a guarded block computes what the
block of the pure embedding computes. -/
theorem guardedBlockSt_toObject (name : TfToken)
    (sample : HdVtBufferSource R → Int → Option (GfMatrix4d R)) (m : PrimvarMap R)
    (idx : VtIntArray) (ts : VtMatrix4dArray R) :
    guardedBlockSt name sample (fun n => (m n).map some) idx ts =
      some (if m.count name > 0 then
          match m name with
          | some buffer => sampleLoop (fun ix => sample buffer ix) idx ts
          | none => ts
        else ts, fun n => (m n).map some) := by
  unfold guardedBlockSt PointerMap.count PointerMap.subscript PrimvarMap.count
  cases hm : m name <;> simp [hm]

theorem guardedBlockSt_translations (S : Hd_USTC_CGBufferSampler R) (m : PrimvarMap R)
    (idx : VtIntArray) (ts : VtMatrix4dArray R) :
    guardedBlockSt HdInstancerTokens.instanceTranslations
        (fun buffer ix => (S.SampleVec3f buffer ix).map SetTranslate)
        (fun n => (m n).map some) idx ts =
      some (applyTranslations S m idx ts, fun n => (m n).map some) := by
  rw [guardedBlockSt_toObject]
  rfl

theorem guardedBlockSt_rotations (S : Hd_USTC_CGBufferSampler R) (m : PrimvarMap R)
    (idx : VtIntArray) (ts : VtMatrix4dArray R) :
    guardedBlockSt HdInstancerTokens.instanceRotations
        (fun buffer ix => (S.SampleVec4f buffer ix).map SetRotate)
        (fun n => (m n).map some) idx ts =
      some (applyRotations S m idx ts, fun n => (m n).map some) := by
  rw [guardedBlockSt_toObject]
  rfl

theorem guardedBlockSt_scales (S : Hd_USTC_CGBufferSampler R) (m : PrimvarMap R)
    (idx : VtIntArray) (ts : VtMatrix4dArray R) :
    guardedBlockSt HdInstancerTokens.instanceScales
        (fun buffer ix => (S.SampleVec3f buffer ix).map SetScale)
        (fun n => (m n).map some) idx ts =
      some (applyScales S m idx ts, fun n => (m n).map some) := by
  rw [guardedBlockSt_toObject]
  rfl

theorem guardedBlockSt_transforms (S : Hd_USTC_CGBufferSampler R) (m : PrimvarMap R)
    (idx : VtIntArray) (ts : VtMatrix4dArray R) :
    guardedBlockSt HdInstancerTokens.instanceTransforms
        (fun buffer ix => S.SampleMatrix4d buffer ix)
        (fun n => (m n).map some) idx ts =
      some (applyTransforms S m idx ts, fun n => (m n).map some) := by
  rw [guardedBlockSt_toObject]
  rfl

/-- On the object of an instancer one level computes the array of the pure
embedding. -/
theorem levelTransformsSt_toObject (S : Hd_USTC_CGBufferSampler R)
    (delegate : HdSceneDelegate R) (self : Hd_USTC_CG_Instancer R) (prototypeId : SdfPath) :
    levelTransformsSt S delegate (toObject self) prototypeId =
      some (levelTransforms S delegate self prototypeId, (toObject self)._primvarMap) := by
  unfold levelTransformsSt levelTransforms
  simp only [toObject, guardedBlockSt_translations, guardedBlockSt_rotations,
    guardedBlockSt_scales, guardedBlockSt_transforms, Option.some_bind]

/-- On the objects of a delegate the call on mutable objects returns what the
pure embedding returns, and the render index it started from. -/
theorem ComputeInstanceTransformsSt_eq (S : Hd_USTC_CGBufferSampler R)
    (delegate : HdSceneDelegate R) (fuel : Nat) :
    ∀ (path prototypeId : SdfPath) (self : Hd_USTC_CG_Instancer R),
      delegate.GetInstancer path = some self →
      ComputeInstanceTransformsSt S delegate fuel (objectsOf delegate) path prototypeId =
        (ComputeInstanceTransforms S delegate fuel self prototypeId).map
          (fun result => (result, objectsOf delegate)) := by
  induction fuel with
  | zero =>
    intro path prototypeId self _
    simp [ComputeInstanceTransformsSt, ComputeInstanceTransforms]
  | succ fuel ih =>
    intro path prototypeId self hself
    have hthis : objectsOf delegate path = some (toObject self) := by
      simp [objectsOf, hself]
    have hindex1 : Function.update (objectsOf delegate) path
        (some { toObject self with _primvarMap := (toObject self)._primvarMap }) =
        objectsOf delegate := by
      rw [← hthis]
      exact Function.update_eq_self path (objectsOf delegate)
    unfold ComputeInstanceTransformsSt ComputeInstanceTransforms
    simp only [hthis, levelTransformsSt_toObject, hindex1]
    have hpid : (toObject self).parentId = self.parentId := rfl
    have hid : (toObject self).id = self.id := rfl
    rw [hpid, hid]
    cases hE : SdfPath.IsEmpty self.parentId with
    | true => simp
    | false =>
      cases hparent : delegate.GetInstancer self.parentId with
      | none => simp [objectsOf, hparent]
      | some parentInstancer =>
        have hobj : objectsOf delegate self.parentId = some (toObject parentInstancer) := by
          simp [objectsOf, hparent]
        simp only [hobj, ih self.parentId self.id parentInstancer hparent]
        cases ComputeInstanceTransforms S delegate fuel parentInstancer self.id <;> simp

/-- C14: `ComputeInstanceTransforms` is read-only. Whatever the render index,
the instancer and the prototype id, a call that returns leaves the primvar
map of the instancer and of every instancer of the render index, its
ancestors among them, as it found it; in particular a reserved name without
an entry has none afterwards; and a second call on the same state returns an
equal array. -/
theorem C14_read_only (S : Hd_USTC_CGBufferSampler R) (delegate : HdSceneDelegate R)
    (fuel : Nat) (index index2 : RenderIndex R) (self prototypeId : SdfPath)
    (result : Computed R)
    (hrun : ComputeInstanceTransformsSt S delegate fuel index self prototypeId =
      some (result, index2)) :
    index2 = index ∧
    (∀ path object name, index path = some object → object._primvarMap name = none →
      ∃ object2, index2 path = some object2 ∧ object2._primvarMap name = none) ∧
    ComputeInstanceTransformsSt S delegate fuel index2 self prototypeId =
      some (result, index2) := by
  have h := ComputeInstanceTransformsSt_index S delegate fuel index index2 self prototypeId
    result hrun
  subst h
  exact ⟨rfl, fun path object name hobject hname => ⟨object, hobject, hname⟩, hrun⟩

/-- C14 at the nested scene: the call on `/P/I` visits `/P`, returns six
matrices and the render index it started from; the rotations, absent from
both maps before the call, are absent after it. -/
theorem C14_read_only_witness :
    (∃ object, objectsOf registeredDelegate "/P/I" = some object ∧
      object._primvarMap HdInstancerTokens.instanceRotations = none) ∧
    ∃ (result : Computed ℤ) (index2 : RenderIndex ℤ),
      ComputeInstanceTransformsSt specSampler registeredDelegate 2
        (objectsOf registeredDelegate) "/P/I" "/proto" = some (result, index2) ∧
      result.transforms.length = 6 ∧
      index2 = objectsOf registeredDelegate ∧
      (∃ object2, index2 "/P/I" = some object2 ∧
        object2._primvarMap HdInstancerTokens.instanceRotations = none) ∧
      (∃ object2, index2 "/P" = some object2 ∧
        object2._primvarMap HdInstancerTokens.instanceRotations = none) ∧
      ComputeInstanceTransformsSt specSampler registeredDelegate 2 index2 "/P/I" "/proto" =
        some (result, index2) := by
  have hrun : ComputeInstanceTransformsSt specSampler registeredDelegate 2
      (objectsOf registeredDelegate) "/P/I" "/proto" =
      (ComputeInstanceTransforms specSampler registeredDelegate 2 nestedChild "/proto").map
        (fun result => (result, objectsOf registeredDelegate)) :=
    ComputeInstanceTransformsSt_eq specSampler registeredDelegate 2 "/P/I" "/proto"
      nestedChild rfl
  have hpure : ComputeInstanceTransforms specSampler registeredDelegate 2 nestedChild "/proto" =
      some ⟨nestLoop (levelTransforms specSampler registeredDelegate nestedParent "/P/I")
        (levelTransforms specSampler registeredDelegate nestedChild "/proto"), 0⟩ := rfl
  rw [hpure] at hrun
  obtain ⟨h1, h2, h3⟩ := C14_read_only specSampler registeredDelegate 2
    (objectsOf registeredDelegate) (objectsOf registeredDelegate) "/P/I" "/proto" _ hrun
  refine ⟨⟨toObject nestedChild, rfl, rfl⟩, _, _, hrun, ?_, rfl, ?_, ?_, h3⟩
  · have hl := (nestLoop_spec (levelTransforms specSampler registeredDelegate nestedParent "/P/I")
      (levelTransforms specSampler registeredDelegate nestedChild "/proto")).1
    show (nestLoop _ _).length = 6
    rw [hl]
    decide
  · exact h2 "/P/I" (toObject nestedChild) _ rfl rfl
  · exact h2 "/P" (toObject nestedParent) _ rfl rfl

end ReadOnly

section DocComment

/-- C16, refuted as stated: at the order scene (identity level transform,
translation `(1,0,0)`, half turn about the z axis, index list `[0]`) the
call returns the rotation matrix times the translation matrix, the product
with the instancer transform leftmost and the full matrix rightmost is the
translation matrix times the rotation matrix, and the two differ. -/
theorem C16_doc_comment_order_counterexample :
    ∃ result : VtMatrix4dArray ℤ,
      ComputeInstanceTransforms specSampler orderDelegate 1 orderInstancer "/proto" =
        some ⟨result, 0⟩ ∧
      result = [SetRotate ![0, 0, 0, 1] * SetTranslate ![1, 0, 0]] ∧
      docCommentTransform specSampler orderDelegate orderInstancer 0 =
        SetTranslate ![1, 0, 0] * SetRotate ![0, 0, 0, 1] ∧
      result ≠ [docCommentTransform specSampler orderDelegate orderInstancer 0] :=
  ⟨levelTransforms specSampler orderDelegate orderInstancer "/proto", rfl, by decide,
    by decide, by decide⟩

end DocComment

section DocCommentOrder

variable {R : Type} [CommRing R]

/-- C16, amended: the transform for this level of instancer at each index is
the product `instanceTransforms(index) * instanceScales(index) *
instanceRotations(index) * instanceTranslations(index) * instancerTransform`
in the operand order of the matrix product (full matrix leftmost, instancer
transform rightmost), a transform that is not provided being the identity.
The comment lists the same factors in column-vector order: the transpose of
this product is the product of the transposed factors in the order of the
comment, instancer transform first. -/
theorem C16_level_product (S : Hd_USTC_CGBufferSampler R) (delegate : HdSceneDelegate R)
    (self : Hd_USTC_CG_Instancer R) (prototypeId : SdfPath) (i : Nat)
    (hi : i < (delegate.GetInstanceIndices self.id prototypeId).length) :
    (levelTransforms S delegate self prototypeId)[i]? =
      some (levelProduct S delegate self (delegate.GetInstanceIndices self.id prototypeId)[i]) ∧
    Matrix.transpose
        (levelProduct S delegate self (delegate.GetInstanceIndices self.id prototypeId)[i]) =
      Matrix.transpose (delegate.GetInstancerTransform self.id) *
        Matrix.transpose (contribution (translationSample S self._primvarMap
          (delegate.GetInstanceIndices self.id prototypeId)[i])) *
        Matrix.transpose (contribution (rotationSample S self._primvarMap
          (delegate.GetInstanceIndices self.id prototypeId)[i])) *
        Matrix.transpose (contribution (scaleSample S self._primvarMap
          (delegate.GetInstanceIndices self.id prototypeId)[i])) *
        Matrix.transpose (contribution (matrixSample S self._primvarMap
          (delegate.GetInstanceIndices self.id prototypeId)[i])) := by
  constructor
  · rw [(levelTransforms_spec S delegate self prototypeId).2 i hi,
      List.getD_eq_getElem _ _ hi]
    simp only [applyContribution_eq, levelProduct, Matrix.mul_assoc]
  · simp only [levelProduct, Matrix.transpose_mul, Matrix.mul_assoc]

/-- C16, amended, at the order scene: the level transform at index 0 is the
rotation matrix times the translation matrix, and its transpose is the
transposed translation times the transposed rotation. -/
theorem C16_level_product_witness :
    (0 : Nat) < (orderDelegate.GetInstanceIndices orderInstancer.id "/proto").length ∧
    levelProduct specSampler orderDelegate orderInstancer 0 =
      SetRotate ![0, 0, 0, 1] * SetTranslate ![1, 0, 0] ∧
    (levelTransforms specSampler orderDelegate orderInstancer "/proto")[0]? =
      some (levelProduct specSampler orderDelegate orderInstancer 0) ∧
    Matrix.transpose (levelProduct specSampler orderDelegate orderInstancer 0) =
      Matrix.transpose (orderDelegate.GetInstancerTransform orderInstancer.id) *
        Matrix.transpose (contribution (translationSample specSampler
          orderInstancer._primvarMap 0)) *
        Matrix.transpose (contribution (rotationSample specSampler
          orderInstancer._primvarMap 0)) *
        Matrix.transpose (contribution (scaleSample specSampler
          orderInstancer._primvarMap 0)) *
        Matrix.transpose (contribution (matrixSample specSampler
          orderInstancer._primvarMap 0)) :=
  ⟨by decide, by decide,
    C16_level_product specSampler orderDelegate orderInstancer "/proto" 0 (by decide)⟩

end DocCommentOrder

end USTC_CG
